import Mathlib

/-!
Verification development for the `reflex-agent-pluggable` repository.

The Python sources under `src/reflexsoar_agent/` are shallowly embedded:
pure functions become Lean functions, raising code returns `Except PyErr`,
and JSON-like Python values are modelled by the inductive `PyVal`.
External libraries (hashlib, cryptography.fernet, dateutil, json) are
modelled symbolically where the code under verification only relies on
their determinism; each such place is marked in a doc comment.
-/

mutual
/-- A Python value as it occurs in the agent's JSON-shaped data: `None`,
`str`, `int`, `bool`, `list`, and string-keyed `dict` (every dict handled
by the embedded code originates from a JSON record or keyword
configuration, whose keys are strings). Dicts are insertion-ordered
key/value sequences, mirroring CPython dict ordering. The list and dict
payloads are mutual inductives (rather than nested `List`s) so that all
functions over them are plain structural recursions. -/
inductive PyVal where
  | none : PyVal
  | str (s : String) : PyVal
  | int (n : Int) : PyVal
  | bool (b : Bool) : PyVal
  | list (xs : PyList) : PyVal
  | dict (kvs : PyDict) : PyVal
deriving Repr

/-- The elements of a Python list value. -/
inductive PyList where
  | nil : PyList
  | cons (v : PyVal) (rest : PyList) : PyList
deriving Repr

/-- The entries of a string-keyed Python dict value. -/
inductive PyDict where
  | nil : PyDict
  | cons (k : String) (v : PyVal) (rest : PyDict) : PyDict
deriving Repr
end

/-- Build a `PyList` from a Lean list (used to write literals). -/
def PyList.ofList : List PyVal → PyList
  | [] => .nil
  | x :: xs => .cons x (PyList.ofList xs)

/-- Flatten a `PyList` to a Lean list. -/
def PyList.toList : PyList → List PyVal
  | .nil => []
  | .cons x xs => x :: PyList.toList xs

/-- Build a `PyDict` from a Lean association list (used to write literals). -/
def PyDict.ofList : List (String × PyVal) → PyDict
  | [] => .nil
  | (k, v) :: kvs => .cons k v (PyDict.ofList kvs)

/-- Flatten a `PyDict` to a Lean association list. -/
def PyDict.toList : PyDict → List (String × PyVal)
  | .nil => []
  | .cons k v kvs => (k, v) :: PyDict.toList kvs

/-- Shorthand for a Python list literal. -/
def pylist (xs : List PyVal) : PyVal := .list (PyList.ofList xs)

/-- Shorthand for a Python dict literal. -/
def pydict (kvs : List (String × PyVal)) : PyVal := .dict (PyDict.ofList kvs)

/-- The Python exceptions raised by the embedded code, named by their
Python class (domain errors carry their module-specific class name). -/
inductive PyErr where
  | typeError (msg : String)
  | keyError (key : String)
  | valueError (msg : String)
  | attributeError (msg : String)
  | indexError (msg : String)
  | consoleAlreadyPaired (msg : String)
  | consoleNotPaired (msg : String)
  | eventManagerNotInitialized (msg : String)
  | blocked (msg : String)
deriving Repr, DecidableEq

/-- Python `is None` (on our value universe `== None` agrees with it). -/
def pyIsNone : PyVal → Bool
  | .none => true
  | _ => false

/-- Python truthiness: `bool(v)` for the values of `PyVal`. -/
def pyTruthy : PyVal → Bool
  | .none => false
  | .str s => s ≠ ""
  | .int n => n ≠ 0
  | .bool b => b
  | .list .nil => false
  | .list (.cons _ _) => true
  | .dict .nil => false
  | .dict (.cons _ _ _) => true

mutual
/-- Python `==` on `PyVal`. Numeric cross-equality `1 == True` is honoured;
dict comparison is entry-wise in order (Python compares dicts without
regard to order, but no theorem below compares reordered dicts). -/
def pyEq : PyVal → PyVal → Bool
  | .none, .none => true
  | .str a, .str b => a == b
  | .int a, .int b => a == b
  | .bool a, .bool b => a == b
  | .int a, .bool b => a == (if b then (1 : Int) else 0)
  | .bool a, .int b => (if a then (1 : Int) else 0) == b
  | .list a, .list b => pyEqList a b
  | .dict a, .dict b => pyEqDict a b
  | _, _ => false

def pyEqList : PyList → PyList → Bool
  | .nil, .nil => true
  | .cons x xs, .cons y ys => pyEq x y && pyEqList xs ys
  | _, _ => false

def pyEqDict : PyDict → PyDict → Bool
  | .nil, .nil => true
  | .cons k v xs, .cons k2 v2 ys => k == k2 && pyEq v v2 && pyEqDict xs ys
  | _, _ => false
end

/-- Classification helpers mirroring `isinstance` checks. -/
def PyVal.isStr : PyVal → Bool
  | .str _ => true
  | _ => false

/-- Python `isinstance(v, int)`: `bool` is a subclass of `int`. -/
def PyVal.isIntLike : PyVal → Bool
  | .int _ => true
  | .bool _ => true
  | _ => false

def PyVal.isList : PyVal → Bool
  | .list _ => true
  | _ => false

def PyVal.isDict : PyVal → Bool
  | .dict _ => true
  | _ => false

/-- Lookup in a string-keyed Python dict (first match; keys are unique in
every dict the code builds). -/
def PyDict.get? : PyDict → String → Option PyVal
  | .nil, _ => Option.none
  | .cons k v kvs, key => if k == key then some v else PyDict.get? kvs key

/-- Python `d.get(k, default)`. -/
def PyDict.getD (kvs : PyDict) (k : String) (default : PyVal) : PyVal :=
  (kvs.get? k).getD default

/-- Key containment in a string-keyed dict. -/
def PyDict.hasKey (kvs : PyDict) (k : String) : Bool :=
  (kvs.get? k).isSome

/-- ASCII lowercase of one character (Python `str.lower` on the ASCII
identifiers and severity names handled by the agent). -/
def lowerChar (c : Char) : Char :=
  if 65 ≤ c.toNat ∧ c.toNat ≤ 90 then Char.ofNat (c.toNat + 32) else c

/-- Python `s.lower()`. -/
def strLower (s : String) : String := String.mk (s.data.map lowerChar)

/-- Remove every occurrence of a character (Python `s.replace("Z", "")`). -/
def stripChar (t : Char) (s : String) : String :=
  String.mk (s.data.filter (fun c => c ≠ t))

/-- Contiguous-infix test on character lists (Python `sub in s`). -/
def charsInfix (needle hay : List Char) : Bool :=
  (List.range (hay.length + 1)).any
    (fun i => ((hay.drop i).take needle.length) == needle)

/-- Python `k in message` for a string `k`: dict key containment, list
element containment, or substring test; on non-iterables it raises
`TypeError` exactly as CPython does. -/
def pyContains (message : PyVal) (k : String) : Except PyErr Bool :=
  match message with
  | .dict kvs => .ok (kvs.hasKey k)
  | .list xs => .ok (xs.toList.any (fun x => pyEq x (.str k)))
  | .str m => .ok (charsInfix k.data m.data)
  | _ => .error (.typeError "argument is not iterable")

/-- Python `message[k]` for a string key `k`. -/
def pyIndexStr (message : PyVal) (k : String) : Except PyErr PyVal :=
  match message with
  | .dict kvs =>
      match kvs.get? k with
      | some v => .ok v
      | Option.none => .error (.keyError k)
  | .list _ => .error (.typeError "list indices must be integers or slices, not str")
  | .str _ => .error (.typeError "string indices must be integers")
  | _ => .error (.typeError "object is not subscriptable")

/-- Python `message[key]` for an arbitrary key value (used by
`data[source_field]`). Non-string keys on a string-keyed dict miss and
raise `KeyError`; integer indexing of lists and strings is supported. -/
def pyIndexVal (message : PyVal) (key : PyVal) : Except PyErr PyVal :=
  match message, key with
  | .dict kvs, .str k =>
      match kvs.get? k with
      | some v => .ok v
      | Option.none => .error (.keyError k)
  | .dict _, _ => .error (.keyError "non-string key misses a string-keyed dict")
  | .list xs, .int i =>
      let l := xs.toList
      let j : Int := if i < 0 then i + l.length else i
      if h : 0 ≤ j ∧ j.toNat < l.length then .ok (l.get ⟨j.toNat, h.2⟩)
      else .error (.indexError "list index out of range")
  | .list xs, .bool b =>
      let l := xs.toList
      let i : Nat := if b then 1 else 0
      if h : i < l.length then .ok (l.get ⟨i, h⟩)
      else .error (.indexError "list index out of range")
  | .str s, .int i =>
      let j : Int := if i < 0 then i + s.length else i
      if h : 0 ≤ j ∧ j.toNat < s.data.length then
        .ok (.str (String.mk [s.data.get ⟨j.toNat, h.2⟩]))
      else .error (.indexError "string index out of range")
  | _, _ => .error (.typeError "object is not subscriptable")

mutual
/-- Python `repr(v)` restricted to `PyVal` (string quoting uses a bare
single quote and does not escape; no theorem inspects these strings). -/
def pyRepr : PyVal → String
  | .none => "None"
  | .bool b => if b then "True" else "False"
  | .int n => toString n
  | .str s => "\x27" ++ s ++ "\x27"
  | .list xs => "[" ++ pyReprList xs ++ "]"
  | .dict kvs => "\x7b" ++ pyReprDict kvs ++ "\x7d"

def pyReprList : PyList → String
  | .nil => ""
  | .cons x .nil => pyRepr x
  | .cons x rest => pyRepr x ++ ", " ++ pyReprList rest

def pyReprDict : PyDict → String
  | .nil => ""
  | .cons k v .nil => "\x27" ++ k ++ "\x27: " ++ pyRepr v
  | .cons k v rest => "\x27" ++ k ++ "\x27: " ++ pyRepr v ++ ", " ++ pyReprDict rest
end

/-- Python `str(v)`. -/
def pyStr : PyVal → String
  | .str s => s
  | v => pyRepr v

mutual
/-- `json.dumps` (Python standard library, external to the repository):
modelled as a plain JSON printer without string escaping; no theorem
inspects its output beyond determinism. -/
def pyJsonDumps : PyVal → String
  | .none => "null"
  | .bool b => if b then "true" else "false"
  | .int n => toString n
  | .str s => "\"" ++ s ++ "\""
  | .list xs => "[" ++ pyJsonDumpsList xs ++ "]"
  | .dict kvs => "\x7b" ++ pyJsonDumpsDict kvs ++ "\x7d"

def pyJsonDumpsList : PyList → String
  | .nil => ""
  | .cons x .nil => pyJsonDumps x
  | .cons x rest => pyJsonDumps x ++ ", " ++ pyJsonDumpsList rest

def pyJsonDumpsDict : PyDict → String
  | .nil => ""
  | .cons k v .nil => "\"" ++ k ++ "\": " ++ pyJsonDumps v
  | .cons k v rest => "\"" ++ k ++ "\": " ++ pyJsonDumps v ++ ", " ++ pyJsonDumpsDict rest
end

/-!
### Event / Observable model — `core/event/base.py`
-/

/-- `Observable.__init__` stores `str(value)` plus the remaining arguments
verbatim (`core/event/base.py`, class `Observable`). -/
structure ObservableObj where
  value : String
  data_type : PyVal
  tlp : PyVal
  tags : PyVal
  ioc : PyVal
  spotted : PyVal
  safe : PyVal
  source_field : PyVal
  original_source_field : PyVal
deriving Repr

/-- The attributes of `Event` (class `Event` in `core/event/base.py`).
Public fields as initialised by `__init__`; the underscored parsing state
is carried in the same record (`baseFields` is `_base_fields`, and so on).
Keyword arguments whose names are not attributes of the class become new
attributes in Python; they are collected in `extraAttrs` and are never read
back. -/
structure EventObj where
  title : PyVal := .none
  description : PyVal := .none
  reference : PyVal := .none
  tags : PyVal := pylist []
  tlp : PyVal := .int 0
  severity : PyVal := .int 1
  observables : List ObservableObj := []
  raw_log : PyVal := .none
  signature : PyVal := .none
  detection_id : PyVal := .none
  risk_score : PyVal := .none
  original_date : PyVal := .none
  source : PyVal := .none
  type_ : PyVal := .none
  baseFields : PyDict := .nil
  signatureFields : List PyVal := []
  observableMapping : List PyVal := []
  message : PyVal := pydict []
  customSeverityMap : Option (List (PyVal × PyVal)) := Option.none
  extraAttrs : List (String × PyVal) := []
deriving Repr

/-- The default severity translation table of `Event._severity_from_map`.
Its keys are the Python values `"low"`, `"medium"`, `"high"`, `"critical"`
and the ints `1`–`4` (a Python dict may have int keys; such maps are
modelled as `(PyVal × PyVal)` association lists). -/
def defaultSeverityMap : List (PyVal × PyVal) :=
  [(.str "low", .int 1), (.str "medium", .int 2), (.str "high", .int 3),
   (.str "critical", .int 4), (.int 1, .int 1), (.int 2, .int 2),
   (.int 3, .int 3), (.int 4, .int 4)]

/-- Truthiness of the `_custom_severity_map` attribute
(`if self._custom_severity_map:`): `None` and an empty dict are falsy. -/
def severityMapTruthy : Option (List (PyVal × PyVal)) → Bool
  | some m => !m.isEmpty
  | Option.none => false

/-- The lowercasing step of `_severity_from_map`:
`if isinstance(severity, str): severity = severity.lower()`. -/
def severityLowered : PyVal → PyVal
  | .str s => .str (strLower s)
  | v => v

/-- `Event._severity_from_map`: reject values that are neither `str` nor
`int` (Python bools count as ints), lowercase strings, pick the custom map
when it is truthy and the default map otherwise, and translate; keys absent
from the chosen map yield `1`. The `severity is None` test of the source is
kept although it is unreachable after the `TypeError` guard. -/
def severityFromMap (custom : Option (List (PyVal × PyVal))) (severity : PyVal) :
    Except PyErr PyVal :=
  if !(severity.isStr || severity.isIntLike) then
    .error (.typeError "Severity must be a string or int")
  else
    let severity := severityLowered severity
    let m := if severityMapTruthy custom then custom.getD [] else defaultSeverityMap
    if pyIsNone severity then .ok (.int 1)
    else
      match m.find? (fun kv => pyEq kv.1 severity) with
      | some kv => .ok kv.2
      | Option.none => .ok (.int 1)

/-- Python `"a.b".split(".")` (note `"".split(".") == [""]`), character by
character with an accumulator. -/
def splitDotsAux : List Char → List Char → List String
  | [], acc => [String.mk acc.reverse]
  | c :: rest, acc =>
      if c = '.' then String.mk acc.reverse :: splitDotsAux rest []
      else splitDotsAux rest (c :: acc)

/-- Python `field.split(".")`. -/
def splitDots (s : String) : List String := splitDotsAux s.data []

/-- Python `".".join(xs)` where every element must be a string. -/
def joinDots : List PyVal → Except PyErr String
  | [] => .ok ""
  | [.str s] => .ok s
  | .str s :: rest => do
      let r ← joinDots rest
      pure (s ++ "." ++ r)
  | _ => .error (.typeError "sequence item: expected str instance")

/-- `Event._extract_field_value`, transcribed with an explicit recursion
bound. The left summand of the third argument is a direct call with a
`field` value; the right summand is the state after `args` has been
computed (the body of `if args and message:`). The Python recursion
terminates because every recursive call passes either `args[1:]` or
`".".join(args[1:])`, both strictly shorter than the current path;
`extractFieldFuel` below over-approximates the recursion depth, so the
fuel-exhausted branch is unreachable through `extractField`. -/
def extractFieldValue : Nat → PyVal → Sum PyVal (List PyVal) → Except PyErr PyVal
  | 0, _, _ => .error (.typeError "recursion bound exhausted (unreachable)")
  | Nat.succ fuel, message, .inl field =>
    (match field with
    | .str s =>
        -- `if message == None: return None`
        if pyIsNone message then .ok .none
        else do
          -- `if field in message: return message[field]`
          let contained ← pyContains message s
          if contained then pyIndexStr message s
          else extractFieldValue fuel message (.inr ((splitDots s).map PyVal.str))
    | .list l => extractFieldValue fuel message (.inr l.toList)
    | _ =>
        -- a non-str, non-list `field` is assigned to `args` and then
        -- subscripted (`args[0]`), which raises `TypeError`
        .error (.typeError "field path is not subscriptable"))
  | Nat.succ fuel, message, .inr args =>
    -- `if args and message:` — the fall-through of the source returns `None`
    if args.isEmpty || !(pyTruthy message) then .ok .none
    else
      match args with
      | [] => .ok .none
      | element :: restArgs =>
          -- `if element:`
          if !(pyTruthy element) then .ok .none
          else do
            let value : PyVal ←
              match message with
              | .list ms =>
                  -- `value = [m for m in message if m is not None]`, then
                  -- flatten one level of nested lists; when any list element
                  -- is present the non-list elements are dropped
                  let value0 := ms.toList.filter (fun m => !(pyIsNone m))
                  if value0.any PyVal.isList then
                    pure (.list (PyList.ofList (value0.foldl (fun acc item =>
                      match item with
                      | .list inner => acc ++ inner.toList.filter (fun v => !(pyIsNone v))
                      | _ => acc) [])))
                  else
                    pure (.list (PyList.ofList (value0.filter (fun v => !(v.isList)))))
              | .dict kvs =>
                  -- `value = message.get(element)`; a non-string key misses a
                  -- string-keyed dict and yields None
                  match element with
                  | .str es => pure (kvs.getD es .none)
                  | _ => pure PyVal.none
              | _ => pure message
            -- `if isinstance(value, list) and value and isinstance(value[0], dict)
            --  and len(args) > 1: value = [extract(item, args[1:]) for item in value]`
            let value : PyVal ←
              match value with
              | .list (.cons vfirst vrest) =>
                  if vfirst.isDict && !restArgs.isEmpty then do
                    let mapped ← (vfirst :: vrest.toList).mapM
                      (fun item => extractFieldValue fuel item (.inr restArgs))
                    pure (.list (PyList.ofList mapped))
                  else pure (.list (.cons vfirst vrest))
              | v => pure v
            -- `return value if len(args) == 1 else extract(value, ".".join(args[1:]))`
            if restArgs.isEmpty then pure value
            else do
              let joined ← joinDots restArgs
              extractFieldValue fuel value (.inl (.str joined))

/-- Fuel that over-approximates the recursion depth of
`_extract_field_value` for a given entry field path. -/
def extractFieldFuel : PyVal → Nat
  | .str s => 2 * s.length + 8
  | .list l => 2 * (l.toList.foldl (fun acc x => acc + (match x with
      | .str s => s.length + 1
      | _ => 1)) 0) + 8
  | _ => 1

/-- Entry point for `Event._extract_field_value`. -/
def extractField (message field : PyVal) : Except PyErr PyVal :=
  extractFieldValue (extractFieldFuel field) message (.inl field)

/-- Python `a += b` where `a` is expected to be a list accumulator
(`self.tags += ...`): extends with the elements of the iterable `b`
(strings iterate as characters, dicts as their keys); `str += str`
concatenates; other combinations raise `TypeError`. -/
def pyIAdd (a b : PyVal) : Except PyErr PyVal :=
  match a, b with
  | .list xs, .list ys => .ok (.list (PyList.ofList (xs.toList ++ ys.toList)))
  | .list xs, .str s =>
      .ok (.list (PyList.ofList (xs.toList ++ s.data.map (fun c => .str (String.mk [c])))))
  | .list xs, .dict kvs =>
      .ok (.list (PyList.ofList (xs.toList ++ kvs.toList.map (fun kv => .str kv.1))))
  | .str s, .str t => .ok (.str (s ++ t))
  | _, _ => .error (.typeError "unsupported operand types for +=")

/-- Python iteration over a value (`for x in v`): list elements, string
characters, or dict keys; other values raise `TypeError`. -/
def pyIter (v : PyVal) : Except PyErr (List PyVal) :=
  match v with
  | .list xs => .ok xs.toList
  | .str s => .ok (s.data.map (fun c => .str (String.mk [c])))
  | .dict kvs => .ok (kvs.toList.map (fun kv => .str kv.1))
  | _ => .error (.typeError "object is not iterable")

/-- Assignment of an `Event` attribute by name, as performed by
`setattr(self, key, value)` for the keyword arguments of `Event.__init__`
other than `observables` and `severity`. Keys that are not attributes of
the embedding (including underscored internals, which no caller in the
repository passes) are collected in `extraAttrs`. -/
def EventObj.setattr (ev : EventObj) (key : String) (value : PyVal) : EventObj :=
  match key with
  | "title" => {ev with title := value}
  | "description" => {ev with description := value}
  | "reference" => {ev with reference := value}
  | "tags" => {ev with tags := value}
  | "tlp" => {ev with tlp := value}
  | "raw_log" => {ev with raw_log := value}
  | "signature" => {ev with signature := value}
  | "detection_id" => {ev with detection_id := value}
  | "risk_score" => {ev with risk_score := value}
  | "original_date" => {ev with original_date := value}
  | "source" => {ev with source := value}
  | "type" => {ev with type_ := value}
  | _ => {ev with extraAttrs := ev.extraAttrs ++ [(key, value)]}

/-- `Observable(**mapping)` as invoked by `Event._parse_observables_from_init`:
all nine constructor parameters must be present as keys and no other key may
occur, else Python raises `TypeError`. -/
def observableFromKwargs (kvs : PyDict) : Except PyErr ObservableObj := do
  let required := ["value", "data_type", "tlp", "tags", "ioc", "spotted", "safe",
                   "source_field", "original_source_field"]
  if (kvs.toList.map (·.1)).any (fun k => !required.contains k) then
    .error (.typeError "unexpected keyword argument")
  else
    match kvs.get? "value", kvs.get? "data_type", kvs.get? "tlp", kvs.get? "tags",
          kvs.get? "ioc", kvs.get? "spotted", kvs.get? "safe",
          kvs.get? "source_field", kvs.get? "original_source_field" with
    | some v, some dt, some tlp, some tags, some ioc, some spotted, some safe,
      some sf, some osf =>
        .ok ⟨pyStr v, dt, tlp, tags, ioc, spotted, safe, sf, osf⟩
    | _, _, _, _, _, _, _, _, _ =>
        .error (.typeError "missing required positional argument")

/-- `Event._parse_observables_from_init`: the value must be a list whose
items are mappings convertible to `Observable` (the `isinstance(observable,
Observable)` branch of the source cannot occur for `PyVal` data); anything
else raises `TypeError`. -/
def parseObservablesFromInit (v : PyVal) : Except PyErr (List ObservableObj) :=
  match v with
  | .list xs =>
      xs.toList.mapM (fun x =>
        match x with
        | .dict kvs => observableFromKwargs kvs
        | _ => .error (.typeError "Invalid observable source data, must Observable or Dict"))
  | _ => .error (.typeError "Invalid observables source data, must be a list")

/-- The keyword-argument loop of `Event.__init__`: `observables` values are
parsed and appended, `severity` values are translated through
`_severity_from_map`, and any other key is assigned with `setattr`. -/
def applyKwargs : EventObj → List (String × PyVal) → Except PyErr EventObj
  | ev, [] => .ok ev
  | ev, (key, value) :: rest =>
      if key == "observables" then do
        let obs ← parseObservablesFromInit value
        applyKwargs {ev with observables := ev.observables ++ obs} rest
      else if key == "severity" then do
        let sev ← severityFromMap ev.customSeverityMap value
        applyKwargs {ev with severity := sev} rest
      else
        applyKwargs (ev.setattr key value) rest

/-- The first loop of `Event._set_event_base`: for each `_base_fields` key
among `rule_name`, `description_field`, `source_reference` and
`original_date_field`, extract the named field from `_message` and assign
the corresponding event attribute. -/
def extractableStep (ev : EventObj) (k : String) (fieldPath : PyVal) :
    Except PyErr EventObj :=
  match k with
  | "rule_name" => do
      let v ← extractField ev.message fieldPath
      pure {ev with title := v}
  | "description_field" => do
      let v ← extractField ev.message fieldPath
      pure {ev with description := v}
  | "source_reference" => do
      let v ← extractField ev.message fieldPath
      pure {ev with reference := v}
  | "original_date_field" => do
      let v ← extractField ev.message fieldPath
      pure {ev with original_date := v}
  | _ => pure ev

def applyExtractableFields : EventObj → List (String × PyVal) → Except PyErr EventObj
  | ev, [] => .ok ev
  | ev, (k, fieldPath) :: rest => do
      let ev ← extractableStep ev k fieldPath
      applyExtractableFields ev rest

/-- `Event._set_event_base`, step 2: `self.original_date.replace("Z", "")`
when `original_date` is not `None`; a non-string value has no `replace`
attribute and raises. -/
def fixOriginalDate (ev : EventObj) : Except PyErr EventObj :=
  if pyIsNone ev.original_date then .ok ev
  else
    match ev.original_date with
    | .str s => .ok {ev with original_date := .str (stripChar 'Z' s)}
    | _ => .error (.attributeError "object has no attribute replace")

/-- `Event._set_event_base`, step 3: copy `tlp`, `type`, `source` and
`risk_score` verbatim from `_base_fields` when present. -/
def applyStaticFields (ev : EventObj) : EventObj :=
  let ev := match ev.baseFields.get? "tlp" with
    | some v => {ev with tlp := v}
    | Option.none => ev
  let ev := match ev.baseFields.get? "type" with
    | some v => {ev with type_ := v}
    | Option.none => ev
  let ev := match ev.baseFields.get? "source" with
    | some v => {ev with source := v}
    | Option.none => ev
  match ev.baseFields.get? "risk_score" with
  | some v => {ev with risk_score := v}
  | Option.none => ev

/-- `Event._set_event_base`, step 4: when `_base_fields` names a
`severity_field`, extract it and translate the value through
`_severity_from_map`. -/
def applySeverityField (ev : EventObj) : Except PyErr EventObj :=
  match ev.baseFields.get? "severity_field" with
  | some fieldPath => do
      let sev ← extractField ev.message fieldPath
      let s ← severityFromMap ev.customSeverityMap sev
      pure {ev with severity := s}
  | Option.none => .ok ev

/-- `Event._set_event_base`, step 5a: `self.tags += _base_fields["static_tags"]`
when present. -/
def applyStaticTags (ev : EventObj) : Except PyErr EventObj :=
  match ev.baseFields.get? "static_tags" with
  | some st => do
      let t ← pyIAdd ev.tags st
      pure {ev with tags := t}
  | Option.none => .ok ev

/-- Append a formatted tag to `self.tags` (requires the attribute to be a
list, as `list.append` does). -/
def appendTag (ev : EventObj) (t : String) : Except PyErr EventObj :=
  match ev.tags with
  | .list xs => .ok {ev with tags := .list (PyList.ofList (xs.toList ++ [.str t]))}
  | _ => .error (.attributeError "object has no attribute append")

/-- The body of `Event._extract_fields_as_tags` for one `tag_field`:
extract the field, skip falsy results, and append `"<field>:<value>"` per
element for list results or a single `"<field>: <value>"` (note the space,
as in the source) otherwise. -/
def applyOneTagField (ev : EventObj) (tagField : PyVal) : Except PyErr EventObj := do
  let tags ← extractField ev.message tagField
  if !(pyTruthy tags) then pure ev
  else
    match tags with
    | .list xs =>
        xs.toList.foldlM (fun ev tag => appendTag ev (pyStr tagField ++ ":" ++ pyStr tag)) ev
    | other => do
        let t ← pyIAdd ev.tags (pylist [.str (pyStr tagField ++ ": " ++ pyStr other)])
        pure {ev with tags := t}

/-- `Event._extract_fields_as_tags`: iterate the `tag_fields` value (absent
`None` is skipped by the source guard). -/
def extractFieldsAsTags (ev : EventObj) (fields : PyVal) : Except PyErr EventObj :=
  if pyIsNone fields then .ok ev
  else do
    let items ← pyIter fields
    items.foldlM applyOneTagField ev

/-- `Event._set_event_base`, step 5b: run `_extract_fields_as_tags` on
`_base_fields["tag_fields"]` when present. -/
def applyTagFields (ev : EventObj) : Except PyErr EventObj :=
  match ev.baseFields.get? "tag_fields" with
  | some tf => extractFieldsAsTags ev tf
  | Option.none => .ok ev

/-- `Event._set_event_base`, final step: `self.raw_log = json.dumps(self._message)`. -/
def setRawLog (ev : EventObj) : EventObj :=
  {ev with raw_log := .str (pyJsonDumps ev.message)}

/-- `Event._set_event_base`, in source order. -/
def setEventBase (ev : EventObj) : Except PyErr EventObj := do
  let ev ← applyExtractableFields ev ev.baseFields.toList
  let ev ← fixOriginalDate ev
  let ev := applyStaticFields ev
  let ev ← applySeverityField ev
  let ev ← applyStaticTags ev
  let ev ← applyTagFields ev
  pure (setRawLog ev)

/-- `hashlib.md5(...).hexdigest()` over the UTF-8 encoding of its input
(external library): the claims rely only on the digest being a
deterministic function of the input string, so it is modelled as the
identity injection. -/
def md5_hexdigest (s : String) : String := s

/-- `Event._generate_signature`: hash `str([title, utcnow()])` when
`_signature_fields` is empty, else the stringified list of the truthy
extracted values. The `datetime.datetime.utcnow()` result is external
input; it enters as the pre-rendered `nowRepr` string. -/
def signatureValues (nowRepr : String) (ev : EventObj) : Except PyErr (List PyVal) :=
  if ev.signatureFields.isEmpty then
    pure [ev.title, .str nowRepr]
  else
    ev.signatureFields.foldlM (fun acc f => do
      let v ← extractField ev.message f
      if pyTruthy v then pure (acc ++ [v]) else pure acc) []

def generateSignature (nowRepr : String) (ev : EventObj) : Except PyErr EventObj := do
  let vals ← signatureValues nowRepr ev
  pure {ev with signature := .str (md5_hexdigest (pyStr (pylist vals)))}

/-- One entry of `Event._extract_observables`: default the `ioc`, `spotted`
and `safe` flags to `False`, collect `tags`, extract the `field` path, and
emit one observable per element for truthy list values or a single
observable for any other truthy value. Entries that are not mappings fail
as the source does when it subscripts them. -/
def extractOneObservable (ev : EventObj) (entry : PyVal)
    (acc : List ObservableObj) : Except PyErr (List ObservableObj) :=
  match entry with
  | .dict kvs0 => do
      -- `for flag in ["ioc", "spotted", "safe"]: if flag not in field:
      --    field[flag] = False`
      let kvs := ["ioc", "spotted", "safe"].foldl (fun kvs flag =>
        if kvs.hasKey flag then kvs
        else PyDict.ofList (kvs.toList ++ [(flag, .bool false)])) kvs0
      -- `tags = []; if "tags" in field: tags += field["tags"]`
      let tags : PyVal ←
        match kvs.get? "tags" with
        | some tv => pyIAdd (pylist []) tv
        | Option.none => pure (pylist [])
      -- `value = self._extract_field_value(self._message, field["field"])`
      let fieldName ←
        match kvs.get? "field" with
        | some f => pure f
        | Option.none => Except.error (PyErr.keyError "field")
      let value ← extractField ev.message fieldName
      -- `source_field = field["field"]; original_source_field = field["field"]`
      -- then `if "alias" in field and field["alias"]: source_field = field["alias"]`
      let sourceField :=
        match kvs.get? "alias" with
        | some av => if pyTruthy av then av else fieldName
        | Option.none => fieldName
      if !(pyTruthy value) then pure acc
      else do
        let ioc := kvs.getD "ioc" (.bool false)
        let spotted := kvs.getD "spotted" (.bool false)
        let safe := kvs.getD "safe" (.bool false)
        let tlp ←
          match kvs.get? "tlp" with
          | some t => pure t
          | Option.none => Except.error (PyErr.keyError "tlp")
        let dataType ←
          match kvs.get? "data_type" with
          | some d => pure d
          | Option.none => Except.error (PyErr.keyError "data_type")
        match value with
        | .list items =>
            pure (acc ++ items.toList.map (fun item =>
              ⟨pyStr item, dataType, tlp, tags, ioc, spotted, safe, sourceField, fieldName⟩))
        | v =>
            pure (acc ++
              [⟨pyStr v, dataType, tlp, tags, ioc, spotted, safe, sourceField, fieldName⟩])
  | _ => .error (.typeError "observable mapping entries must be mappings")

/-- `Event._extract_observables`: fold the observable mapping and replace
`self.observables` with the result. -/
def extractObservables (ev : EventObj) : Except PyErr EventObj := do
  let obs ← ev.observableMapping.foldlM (fun acc entry => extractOneObservable ev entry acc) []
  pure {ev with observables := obs}

/-- `Event._init_parsing_config`: store the parsing configuration, then,
when `data` is provided, select `_message` (via `data[source_field]` when
`source_field` is truthy) and run `_set_event_base`,
`_generate_signature` and `_extract_observables`. -/
def selectMessage (d : PyVal) (source_field : Option PyVal) : Except PyErr PyVal :=
  match source_field with
  | some sf => if pyTruthy sf then pyIndexVal d sf else pure d
  | Option.none => pure d

def initParsingConfig (data : Option PyVal) (base_fields : Option PyDict)
    (signature_fields : Option (List PyVal)) (observable_mapping : Option (List PyVal))
    (source_field : Option PyVal) (nowRepr : String) (ev : EventObj) :
    Except PyErr EventObj := do
  let ev := {ev with
    signatureFields := signature_fields.getD []
    baseFields := base_fields.getD .nil
    observableMapping := observable_mapping.getD []}
  match data with
  | Option.none => pure {ev with message := pydict []}
  | some d => do
      let msg ← selectMessage d source_field
      let ev := {ev with message := msg}
      let ev ← setEventBase ev
      let ev ← generateSignature nowRepr ev
      extractObservables ev

/-- `Event.__init__` (`core/event/base.py`). Attribute defaults come from
the `EventObj` structure defaults; `source=None` raises `ValueError`;
keyword arguments are processed in order; finally the parsing
configuration runs. `nowRepr` renders the external
`datetime.datetime.utcnow()` used by the default signature. -/
def EventObj.init (data : Option PyVal) (base_fields : Option PyDict)
    (signature_fields : Option (List PyVal)) (observable_mapping : Option (List PyVal))
    (source_field : Option PyVal) (severity_map : Option (List (PyVal × PyVal)))
    (source : PyVal) (kwargs : List (String × PyVal)) (nowRepr : String) :
    Except PyErr EventObj := do
  let ev : EventObj := {customSeverityMap := severity_map}
  if pyIsNone source then .error (.valueError "Source must be provided")
  else do
    let ev := {ev with source := source}
    let ev ← applyKwargs ev kwargs
    initParsingConfig data base_fields signature_fields observable_mapping
      source_field nowRepr ev

/-!
### EventManager — `core/event/manager.py`
-/

/-- An object passed to `EventManager.prepare_events` is either an `Event`
instance or any other Python value (`isinstance(event, Event)` decides). -/
inductive QueueItem where
  | event (e : EventObj)
  | raw (v : PyVal)
deriving Repr

/-- The `EventManager` state relevant to `prepare_events`: the
`_initialized` flag, the `back_pressure` counter, the shared event queue
(a FIFO list) and the `_max_spooled_events` bound. -/
structure EventManagerState where
  initialized : Bool
  backPressure : Int
  eventQueue : List QueueItem
  maxSpooledEvents : Nat := 10000
deriving Repr

/-- `EventManager.parse_event`: the source carries a
`TODO: Add all the Event parsing logic here` and returns its argument
unchanged, so a raw record stays a raw record. -/
def EventManager.parse_event (event : PyVal) : PyVal := event

/-- `EventManager.prepare_events` (`core/event/manager.py`): raise when not
initialized; while the queue is over `_max_spooled_events` the producer
sleeps inside the loop — in this single-process model an over-full queue
can never shrink, so that state is reported as `blocked`; otherwise
`back_pressure` resets to `1` and each input is enqueued — `Event`
instances directly, anything else through `parse_event`. The
`signature_fields`, `observable_mapping` and `base_fields` parameters are
normalized by the source but never used. -/
def EventManager.prepare_events (m : EventManagerState) (events : List QueueItem)
    (base_fields : Option PyDict := Option.none)
    (signature_fields : Option (List PyVal) := Option.none)
    (observable_mapping : Option (List PyVal) := Option.none) :
    Except PyErr EventManagerState :=
  let _ := signature_fields.getD []
  let _ := observable_mapping.getD []
  let _ := base_fields
  if m.initialized = false then
    .error (.eventManagerNotInitialized "The EventManager has not been initialized")
  else if m.eventQueue.length > m.maxSpooledEvents then
    .error (.blocked "queue above max_spooled_events; only the spooler process can drain it")
  else
    let m := {m with backPressure := 1}
    .ok {m with eventQueue := m.eventQueue ++ events.map (fun e =>
      match e with
      | .event ev => QueueItem.event ev
      | .raw v => QueueItem.raw (EventManager.parse_event v))}

/-!
### AgentConfig, AgentPolicy handling — `core/config.py` and `agent.py`
-/

/-- The attributes of `AgentConfig` (identical in `core/config.py` and
`agent.py`). All fields hold Python values; `__init__` sets `uuid`,
`roles`, `role_configs`, `console_info` and `name`, and `from_policy`
(always called by `__init__`) sets the rest. -/
structure AgentConfig where
  uuid : PyVal
  roles : PyVal
  role_configs : PyVal
  console_info : PyVal
  name : PyVal
  policy_revision : PyVal
  policy_uuid : PyVal
  event_cache_key : PyVal
  event_cache_ttl : PyVal
  disable_event_cache_check : PyVal
  health_check_interval : PyVal
deriving Repr

/-- `AgentConfig.from_policy`: every policy-derived field is re-read from
the policy dict with its hard default; only `console_info` (guarded by
`if "console_info" in policy`) and `roles` (whose `.get` default is the
current value) keep their previous values when absent. -/
def AgentConfig.from_policy (cfg : AgentConfig) (policy : PyDict) : AgentConfig :=
  { cfg with
    policy_revision := policy.getD "revision" (.int 0)
    policy_uuid := policy.getD "uuid" (.str "")
    role_configs := policy.getD "role_configs" (pydict [])
    event_cache_key := policy.getD "event_cache_key" (.str "signature")
    event_cache_ttl := policy.getD "event_cache_ttl" (.int 30)
    disable_event_cache_check := policy.getD "disable_event_cache_check" (.bool false)
    health_check_interval := policy.getD "health_check_interval" (.int 30)
    console_info :=
      match policy.get? "console_info" with
      | some v => v
      | Option.none => cfg.console_info
    roles := policy.getD "roles" cfg.roles }

/-- `AgentConfig.__init__`: `roles` falls back to `[]` when `None` or
falsy; `role_configs` and `console_info` start empty; `name` is the
hostname (external input, passed as a parameter); then `from_policy` runs
on `policy` when truthy and on the remaining keyword arguments
otherwise. -/
def AgentConfig.init (uuid : PyVal) (roles : Option PyVal) (policy : Option PyDict)
    (kwargs : PyDict) (hostname : String) : AgentConfig :=
  let rolesVal : PyVal :=
    match roles with
    | some r => if pyTruthy r then r else pylist []
    | Option.none => pylist []
  let base : AgentConfig :=
    { uuid := uuid, roles := rolesVal, role_configs := pydict [],
      console_info := pydict [], name := .str hostname,
      policy_revision := .int 0, policy_uuid := .str "",
      event_cache_key := .str "signature", event_cache_ttl := .int 30,
      disable_event_cache_check := .bool false, health_check_interval := .int 30 }
  match policy with
  | some p => if !(p.toList.isEmpty) then base.from_policy p else base.from_policy kwargs
  | Option.none => base.from_policy kwargs

/-- `AgentConfig.add_paired_console` (`core/config.py` line 109,
`agent.py` line 81): reads `self.console_info["url"]` unconditionally —
`KeyError` when unpaired — and raises `ConsoleAlreadyPaired` when the
stored URL equals the new one. -/
def AgentConfig.add_paired_console (cfg : AgentConfig) (url api_key : String) :
    Except PyErr AgentConfig := do
  let current ← pyIndexStr cfg.console_info "url"
  if !(pyEq current (.str url)) then
    pure {cfg with console_info := pydict [("api_key", .str api_key), ("url", .str url)]}
  else
    .error (.consoleAlreadyPaired ("Console " ++ url ++ " is already paired with this agent."))

/-- The attribute read for `set_value`'s `isinstance(getattr(self, key), ...)`
dispatch, for the six updateable keys. -/
def AgentConfig.getattrKey (cfg : AgentConfig) (key : String) : PyVal :=
  if key == "roles" then cfg.roles
  else if key == "event_cache_key" then cfg.event_cache_key
  else if key == "event_cache_ttl" then cfg.event_cache_ttl
  else if key == "health_check_interval" then cfg.health_check_interval
  else if key == "role_configs" then cfg.role_configs
  else cfg.disable_event_cache_check

/-- The assignment performed by `setattr(self, key, value)` for the six
updateable keys. -/
def AgentConfig.setattrKey (cfg : AgentConfig) (key : String) (value : PyVal) : AgentConfig :=
  if key == "roles" then {cfg with roles := value}
  else if key == "event_cache_key" then {cfg with event_cache_key := value}
  else if key == "event_cache_ttl" then {cfg with event_cache_ttl := value}
  else if key == "health_check_interval" then {cfg with health_check_interval := value}
  else if key == "role_configs" then {cfg with role_configs := value}
  else {cfg with disable_event_cache_check := value}

/-- The membership test `value.lower in ["true", "false"]` of
`AgentConfig.set_value`: `value.lower` (without parentheses) is the bound
method object, which never compares equal to a string, so the test is
`False` for every value — the string-to-bool coercion that follows is dead
code. -/
def lowerMethodInTrueFalse (_value : String) : Bool := false

/-- Decimal digit value of a character. -/
def digitVal (c : Char) : Option Nat :=
  if 48 ≤ c.toNat ∧ c.toNat ≤ 57 then some (c.toNat - 48) else Option.none

/-- Parse a decimal digit run. -/
def digitsToNat : List Char → Option Nat
  | [] => Option.none
  | cs => cs.foldl (fun acc c =>
      match acc, digitVal c with
      | some n, some d => some (n * 10 + d)
      | _, _ => Option.none) (some 0)

/-- Parse a Python decimal integer literal (an optional sign followed by
digits; the whitespace stripping of `int()` is omitted — no caller passes
padded strings). -/
def strToInt? (s : String) : Option Int :=
  match s.data with
  | '-' :: rest => (digitsToNat rest).map (fun n => -(n : Int))
  | '+' :: rest => (digitsToNat rest).map (fun n => (n : Int))
  | cs => (digitsToNat cs).map (fun n => (n : Int))

/-- Python `int(value)` as used by `set_value` (string parsing; bools map
to 0/1; non-numeric strings raise `ValueError`). -/
def pyToInt (v : PyVal) : Except PyErr PyVal :=
  match v with
  | .int n => .ok (.int n)
  | .bool b => .ok (.int (if b then 1 else 0))
  | .str s =>
      match strToInt? s with
      | some n => .ok (.int n)
      | Option.none => .error (.valueError "invalid literal for int() with base 10")
  | _ => .error (.typeError "int() argument must be a string or a number")

/-- `json.loads` (Python standard library, external to the repository),
reached only by the `role_configs` branch of `set_value` for string
values. No theorem evaluates it; it is modelled as a deserialization
stub that tags its input. -/
def json_loads (s : String) : Except PyErr PyVal :=
  .ok (pydict [("__json_source__", .str s)])

/-- `AgentConfig.set_value` (`core/config.py`): restrict to the six
updateable keys (`KeyError` otherwise), apply the dead string-to-bool
coercion, then dispatch on the runtime type of the current attribute:
list attributes comma-split strings (empty string gives `[]`), bool
attributes take `bool(value) if value else False`, int attributes take
`int(value)`, str attributes take the value verbatim, dict attributes
parse strings as JSON. Returns the new config and the `True`/`False`
result. The copy in `agent.py` differs only in the dict branch, which is
not exercised by any theorem. -/
def AgentConfig.set_value (cfg : AgentConfig) (key : String) (value : PyVal) :
    Except PyErr (AgentConfig × Bool) := do
  let updateable := ["roles", "event_cache_key", "event_cache_ttl",
                     "health_check_interval", "role_configs", "disable_event_cache_check"]
  let value :=
    match value with
    | .str s => if lowerMethodInTrueFalse s then .bool (strLower s == "true") else .str s
    | v => v
  if updateable.contains key then
    -- `hasattr(self, key)` holds for all six keys: `__init__` always
    -- assigns them (via `from_policy`)
    let current := cfg.getattrKey key
    if current.isList then
      -- `value.split(",") if value not in [""] else []`
      if pyEq value (.str "") then pure (cfg.setattrKey key (pylist []), true)
      else
        match value with
        | .str s =>
            pure (cfg.setattrKey key
              (pylist ((s.data.foldr (fun c acc =>
                if c = ',' then [] :: acc
                else (c :: acc.headD []) :: acc.tail) [[]]).map
                  (fun cs => .str (String.mk cs)))), true)
        | _ => .error (.attributeError "object has no attribute split")
    else
      match current with
      | .bool _ =>
          pure (cfg.setattrKey key (.bool (if pyTruthy value then pyTruthy value else false)), true)
      | .int _ => do
          let n ← pyToInt value
          pure (cfg.setattrKey key n, true)
      | .str _ => pure (cfg.setattrKey key value, true)
      | .dict _ =>
          (match value with
          | .str s => do
              let parsed ← json_loads s
              pure (cfg.setattrKey key parsed, true)
          | v => pure (cfg.setattrKey key v, true))
      | _ => pure (cfg, false)
  else
    .error (.keyError ("Key " ++ key ++ " is not updateable."))

/-- The policy-change test and merge of `Agent.check_policy` (`agent.py`
lines 326–333): `policy["revision"] > policy_revision and policy["uuid"]
== policy_revision` or `policy["uuid"] != self.config.policy_uuid`; when
it holds, `from_policy` is applied. The remaining body (pushing role
configs into the shared maps, restarting roles, saving the file) manages
processes and files outside the configuration-state model. -/
def Agent.check_policy_update (cfg : AgentConfig) (policy : PyDict) :
    Except PyErr AgentConfig := do
  let rev ← pyIndexStr (.dict policy) "revision"
  let gt ←
    match rev, cfg.policy_revision with
    | .int a, .int b => pure (decide (b < a))
    | .int a, .bool b => pure (decide ((if b then (1 : Int) else 0) < a))
    | .bool a, .int b => pure (decide (b < (if a then (1 : Int) else 0)))
    | _, _ => Except.error (PyErr.typeError "unsupported operand types for >")
  let firstBranch ←
    if gt then do
      let u ← pyIndexStr (.dict policy) "uuid"
      pure (pyEq u cfg.policy_revision)
    else pure false
  let changed ←
    if firstBranch then pure true
    else do
      let u ← pyIndexStr (.dict policy) "uuid"
      pure (!(pyEq u cfg.policy_uuid))
  if changed then pure (cfg.from_policy policy) else pure cfg

/-- The policy-change predicate exactly as the specification words it
(claim C1): the merge applies if and only if the fetched revision differs
from the stored `policy_revision` or the fetched uuid differs from the
stored `policy_uuid`. -/
def policyChangeSpec (cfg : AgentConfig) (policy : PyDict) : Bool :=
  !(pyEq (policy.getD "revision" .none) cfg.policy_revision) ||
  !(pyEq (policy.getD "uuid" .none) cfg.policy_uuid)

/-!
### Detection scheduling — `role/core/detector/detection.py`
-/

/-- The scheduling-relevant attributes of a `Detection` rule. Timestamps
(`last_run`, `last_hit`) are ISO-8601 strings in the source, parsed with
the external `dateutil` parser; they are modelled as UTC epoch seconds.
`interval`, `mute_period` and `catchup_period` are minutes; `lookbehind`
is minutes and becomes an integer whenever `_should_run` reassigns it via
`math.ceil`. `_optional_values` assigns `last_run`, `last_hit`,
`mute_period` and `catchup_period` unconditionally, so the `hasattr`
guards of `_should_run` always hold and its `ValueError` branch is
unreachable. -/
structure Detection where
  interval : Int
  lookbehind : ℚ
  mutePeriod : Int
  catchupPeriod : Int
  lastRun : Int
  lastHit : Int
deriving Repr

/-- `Detection._should_run(catchup_period)` at the current instant `now`
(the source's `datetime.utcnow()`), returning the decision together with
the updated `lookbehind`:
`next_run = last_run + interval` minutes; with a positive `mute_period`,
`mute_time = last_hit + mute_period * 60` seconds, else firing is not
muted; fire when `now > next_run` and `now >= mute_time`, widening the
lookbehind by `catchup_period` when the gap exceeds it, or by the gap
itself when the gap exceeds the current lookbehind. -/
def Detection.shouldRun (d : Detection) (catchupPeriod : Int) (now : Int) :
    Bool × ℚ :=
  let nextRun : Int := d.lastRun + d.interval * 60
  let muteTime : Int := if 0 < d.mutePeriod then d.lastHit + d.mutePeriod * 60 else now
  if nextRun < now ∧ muteTime ≤ now then
    let minutesSince : ℚ := ((now : ℚ) - (nextRun : ℚ)) / 60
    let lookbehind : ℚ :=
      if (catchupPeriod : ℚ) < minutesSince then
        ((⌈d.lookbehind + (catchupPeriod : ℚ)⌉ : ℤ) : ℚ)
      else if d.lookbehind < minutesSince then
        ((⌈d.lookbehind + minutesSince⌉ : ℤ) : ℚ)
      else d.lookbehind
    (true, lookbehind)
  else (false, d.lookbehind)

/-!
### Poller input selection — `role/core/poller.py`
-/

/-- A configured input as seen by `Poller.fetch_inputs`: an adapter object
with a `last_run` timestamp (`None` until its first run; epoch seconds
after, standing for the `datetime` values of the source). The `name`
field carries the adapter identity. -/
structure InputObj where
  name : String
  lastRun : Option Int
deriving Repr, DecidableEq

/-- Python `==` between a `str` dict key and an `Input` instance: always
`False` (no cross-type `__eq__`), which is what makes
`self.configured_inputs[inputs_sorted[0]]` raise `KeyError`. -/
def strEqInputObj (_k : String) (_x : InputObj) : Bool := false

/-- Insertion sort by `last_run`, standing for Python's stable
`sorted(..., key=lambda x: x.last_run)` over inputs whose `last_run` is
not `None`. -/
def insertByLastRun (x : InputObj) : List InputObj → List InputObj
  | [] => [x]
  | y :: ys =>
      if x.lastRun.getD 0 < y.lastRun.getD 0 then x :: y :: ys
      else y :: insertByLastRun x ys

def sortByLastRun : List InputObj → List InputObj
  | [] => []
  | x :: xs => insertByLastRun x (sortByLastRun xs)

/-- `Poller.fetch_inputs` over the `configured_inputs` dict (uuid keys in
insertion order). When some input has never run, the generator yields
exactly the unrun inputs. Otherwise the inputs are sorted by `last_run`
and the source evaluates `self.configured_inputs[inputs_sorted[0]]`: a
dict lookup keyed by the sorted `Input` *object*, while every key is a
uuid string — the lookup always misses and raises `KeyError` (an empty
dict raises `IndexError` at `inputs_sorted[0]` first). -/
def Poller.fetch_inputs (configuredInputs : List (String × InputObj)) :
    Except PyErr (List InputObj) :=
  let vals := configuredInputs.map (·.2)
  let unrun := vals.filter (fun i => i.lastRun.isNone)
  if 0 < unrun.length then
    .ok (unrun.filter (fun i => i.lastRun.isNone))
  else
    let sorted := sortByLastRun (vals.filter (fun i => i.lastRun.isSome))
    match sorted with
    | [] => .error (.indexError "list index out of range")
    | first :: _ =>
        match configuredInputs.find? (fun kv => strEqInputObj kv.1 first) with
        | some kv => .ok [kv.2]
        | Option.none => .error (.keyError "Input instance is not a key of configured_inputs")

/-!
### Vault — `core/vault/vault.py`
-/

/-- A key derived by `PBKDF2HMAC` (external `cryptography` primitive):
modelled symbolically as the tuple of its inputs, which captures exactly
the determinism and collision-freeness the vault code relies on. -/
structure DerivedKey where
  secret : String
  salt : Nat
  iterations : Nat
deriving Repr, DecidableEq

/-- A `Fernet` token (external authenticated symmetric cipher): the key it
was produced under and the plaintext; decryption under any other key fails
authentication (`InvalidToken`). -/
structure FernetToken where
  key : DerivedKey
  msg : String
deriving Repr, DecidableEq

/-- The string produced by `Vault._encrypt`:
`base64(salt ‖ iterations_be32 ‖ base64(token))`. The base64 framing is a
bijection, so the ciphertext is modelled as the parsed triple that
`_decrypt` recovers from it. -/
structure CipherText where
  salt : Nat
  iterations : Nat
  token : FernetToken
deriving Repr, DecidableEq

/-- One vault entry: the encrypted `username` and `password` strings. -/
structure VaultSecret where
  username : CipherText
  password : CipherText
deriving Repr, DecidableEq

/-- The in-memory `Vault` state: the master key (`secret_key`), the PBKDF2
iteration count and the uuid-keyed `secrets` mapping. File persistence
(`save`, `load_vault`, the cross-process lock) is I/O outside the model;
`get_secret`/`create_secret`/`delete_secret` below act on this state just
as the source does. -/
structure Vault where
  secretKey : String
  iterations : Nat
  secrets : List (String × VaultSecret)
deriving Repr, DecidableEq

/-- `Vault._derive_key` over the symbolic `PBKDF2HMAC`. -/
def derive_key (secret : String) (salt : Nat) (iterations : Nat) : DerivedKey :=
  ⟨secret, salt, iterations⟩

/-- `Vault._encrypt`: draw a fresh salt (external randomness, passed as the
`salt` argument), derive a key from the master key, wrap the message with
`Fernet`, and frame salt, iteration count and token. -/
def Vault.encrypt (v : Vault) (salt : Nat) (message : String) : CipherText :=
  ⟨salt, v.iterations, ⟨derive_key v.secretKey salt v.iterations, message⟩⟩

/-- `Vault._decrypt`: split the frame, re-derive the key from the stored
salt and iteration count, and decrypt; on `InvalidToken` (key mismatch)
return the empty string instead of raising. -/
def Vault.decrypt (v : Vault) (c : CipherText) : String :=
  if c.token.key = derive_key v.secretKey c.salt c.iterations then c.token.msg else ""

/-- Lookup in the uuid-keyed `secrets` dict. -/
def secretsLookup : List (String × VaultSecret) → String → Option VaultSecret
  | [], _ => Option.none
  | (k, v) :: rest, uuid => if k = uuid then some v else secretsLookup rest uuid

/-- Dict assignment `self.secrets[uuid] = entry`: overwrite an existing
key in place, else append. -/
def vaultInsert : List (String × VaultSecret) → String → VaultSecret →
    List (String × VaultSecret)
  | [], uuid, entry => [(uuid, entry)]
  | (k, v) :: rest, uuid, entry =>
      if k = uuid then (uuid, entry) :: rest
      else (k, v) :: vaultInsert rest uuid entry

/-- Dict deletion `self.secrets.pop(uuid)` on the entry list. -/
def secretsRemove : List (String × VaultSecret) → String →
    List (String × VaultSecret)
  | [], _ => []
  | (k, v) :: rest, uuid =>
      if k = uuid then secretsRemove rest uuid
      else (k, v) :: secretsRemove rest uuid

/-- `Vault.create_secret`: generate a uuid (external randomness, passed as
`uuid`), encrypt both fields under fresh salts, store the entry (the
`save_secret` file append is I/O outside the model) and return the uuid. -/
def Vault.create_secret (v : Vault) (uuid : String) (saltU saltP : Nat)
    (username password : String) : Vault × String :=
  ({v with secrets :=
      vaultInsert v.secrets uuid ⟨v.encrypt saltU username, v.encrypt saltP password⟩},
   uuid)

/-- `Vault.get_secret`: `self.secrets.get(secret_uuid, None) or None`,
then decrypt both fields (an entry dict is always two-keyed, hence
truthy). -/
def Vault.get_secret (v : Vault) (uuid : String) : Option (String × String) :=
  match secretsLookup v.secrets uuid with
  | some e => some (v.decrypt e.username, v.decrypt e.password)
  | Option.none => Option.none

/-- `Vault.delete_secret`: `self.secrets.pop(secret_uuid)` — `KeyError`
when absent — followed by `save` (file I/O outside the model). -/
def Vault.delete_secret (v : Vault) (uuid : String) : Except PyErr Vault :=
  if (secretsLookup v.secrets uuid).isSome then
    .ok {v with secrets := secretsRemove v.secrets uuid}
  else .error (.keyError uuid)

/-!
### Claim-side predicates and proof frames
-/

/-- The specification's severity invariant: `severity ∈ {1, 2, 3, 4}`. -/
def severityInRange (v : PyVal) : Prop :=
  v = .int 1 ∨ v = .int 2 ∨ v = .int 3 ∨ v = .int 4

/-- The specification's TLP invariant: `tlp ∈ {0, 1, 2, 3, 4}`. -/
def tlpInRange (v : PyVal) : Prop :=
  v = .int 0 ∨ v = .int 1 ∨ v = .int 2 ∨ v = .int 3 ∨ v = .int 4

/-- No keyword argument targets an underscored (private) attribute. The
repository's callers only pass documented public keyword arguments; a
kwarg such as `_custom_severity_map` would overwrite parsing internals and
is outside the embedding (`EventObj.setattr` files it under
`extraAttrs`). -/
def noPrivateKeys (kwargs : List (String × PyVal)) : Bool :=
  kwargs.all (fun kv => !(kv.1.data.head? == some '_'))

/-- Frame relation between event states: the fields that drive severity
and TLP (`severity`, `tlp`, `_custom_severity_map`, `_message`,
`_base_fields`) are unchanged. -/
def coreFrame (ev ev' : EventObj) : Prop :=
  ev'.severity = ev.severity ∧ ev'.tlp = ev.tlp ∧
  ev'.customSeverityMap = ev.customSeverityMap ∧
  ev'.message = ev.message ∧ ev'.baseFields = ev.baseFields

/-!
## Theorems

Shared inversion lemmas for the `Except` monad, then the claim theorems.
-/

theorem exceptBind_ok {α β : Type} {e : Except PyErr α} {f : α → Except PyErr β}
    {y : β} (h : (e >>= f) = .ok y) : ∃ x, e = .ok x ∧ f x = .ok y := by
  cases e with
  | ok x => exact ⟨x, rfl, h⟩
  | error _ => simp [Bind.bind, Except.bind] at h

theorem exceptMap_ok {α β : Type} {e : Except PyErr α} {f : α → β} {y : β}
    (h : e.map f = .ok y) : ∃ x, e = .ok x ∧ f x = y := by
  cases e with
  | ok x =>
      refine ⟨x, rfl, ?_⟩
      simpa [Except.map] using h
  | error _ => simp [Except.map] at h

theorem lookup_vaultInsert (s : List (String × VaultSecret)) (uuid : String)
    (e : VaultSecret) : secretsLookup (vaultInsert s uuid e) uuid = some e := by
  induction s with
  | nil => simp [vaultInsert, secretsLookup]
  | cons hd tl ih =>
    obtain ⟨k, v⟩ := hd
    by_cases hk : k = uuid
    · simp [vaultInsert, hk, secretsLookup]
    · simp [vaultInsert, hk, secretsLookup, ih]

theorem lookup_secretsRemove (s : List (String × VaultSecret)) (uuid : String) :
    secretsLookup (secretsRemove s uuid) uuid = Option.none := by
  induction s with
  | nil => simp [secretsRemove, secretsLookup]
  | cons hd tl ih =>
    obtain ⟨k, v⟩ := hd
    by_cases hk : k = uuid
    · simpa [secretsRemove, hk] using ih
    · simp [secretsRemove, hk, secretsLookup, ih]

/-- C5: for a rule with `interval=5`, `lookbehind=30`, `mute_period=5`,
`catchup_period=1440`, `last_run = now - 2 days` and `last_hit = now - 1
day`, `_should_run(1440)` returns `True` and sets
`lookbehind = ceil(30 + 1440) = 1470`; after `last_run = now` (with the
rule now carrying the updated lookbehind), `_should_run(1440)` returns
`False`. -/
theorem detection_catchup_scenario (now : ℤ) :
    Detection.shouldRun ⟨5, 30, 5, 1440, now - 2 * 86400, now - 86400⟩ 1440 now
      = (true, 1470) ∧
    Detection.shouldRun
      {(⟨5, 30, 5, 1440, now - 2 * 86400, now - 86400⟩ : Detection) with
        lookbehind :=
          (Detection.shouldRun ⟨5, 30, 5, 1440, now - 2 * 86400, now - 86400⟩ 1440 now).2,
        lastRun := now} 1440 now = (false, 1470) := by
  have h1 : Detection.shouldRun ⟨5, 30, 5, 1440, now - 2 * 86400, now - 86400⟩ 1440 now
      = (true, 1470) := by
    simp only [Detection.shouldRun]
    norm_num
    rw [if_pos (by omega : now - 172800 + 300 < now ∧ now - 86400 + 300 ≤ now)]
    rw [show ((now : ℚ) - ((now : ℚ) - 172800 + 300)) / 60 = 2875 from by ring]
    norm_num
  refine ⟨h1, ?_⟩
  rw [h1]
  simp only [Detection.shouldRun]
  norm_num

/-- C9: for any vault and any credentials, `get_secret(create_secret(u, p))`
returns the pair `(u, p)` (the entry decrypts under the same master key),
and after a successful `delete_secret(id)` the entry is no longer
retrievable: `get_secret(id)` returns `None`. -/
theorem vault_secret_roundtrip :
    (∀ (v : Vault) (uuid : String) (saltU saltP : Nat) (u p : String),
      (v.create_secret uuid saltU saltP u p).1.get_secret
        (v.create_secret uuid saltU saltP u p).2 = some (u, p)) ∧
    (∀ (v v' : Vault) (uuid : String),
      v.delete_secret uuid = .ok v' → v'.get_secret uuid = Option.none) := by
  constructor
  · intro v uuid saltU saltP u p
    simp [Vault.create_secret, Vault.get_secret, lookup_vaultInsert,
      Vault.decrypt, Vault.encrypt, derive_key]
  · intro v v' uuid h
    unfold Vault.delete_secret at h
    split at h
    · cases h
      simp [Vault.get_secret, lookup_secretsRemove]
    · cases h

/-- Witness for C9 at a concrete vault: the round trip on a fresh vault
with master key `"master"`, and the lookup after deleting the created
entry. -/
theorem vault_secret_roundtrip_witness :
    ((⟨"master", 100000, []⟩ : Vault).create_secret "id" 1 2 "user" "pass").1.get_secret
      ((⟨"master", 100000, []⟩ : Vault).create_secret "id" 1 2 "user" "pass").2
        = some ("user", "pass") ∧
    Vault.get_secret ⟨"master", 100000, []⟩ "id" = Option.none :=
  ⟨vault_secret_roundtrip.1 ⟨"master", 100000, []⟩ "id" 1 2 "user" "pass",
   vault_secret_roundtrip.2
     ((⟨"master", 100000, []⟩ : Vault).create_secret "id" 1 2 "user" "pass").1
     ⟨"master", 100000, []⟩ "id" rfl⟩

/-- C10: on every `AgentConfig` whose `console_info` is the empty dict (an
unpaired agent), `add_paired_console` reads `console_info["url"]` and
raises `KeyError` before recording anything, so a first pairing through
this method never succeeds. -/
theorem add_paired_console_unpaired_keyerror
    (cfg : AgentConfig) (url api_key : String)
    (h : cfg.console_info = pydict []) :
    cfg.add_paired_console url api_key = .error (.keyError "url") := by
  simp [AgentConfig.add_paired_console, h, pydict, PyDict.ofList, pyIndexStr,
    PyDict.get?, Bind.bind, Except.bind]

/-- Witness for C10: the freshly initialised configuration is unpaired and
`add_paired_console` raises `KeyError("url")` on it. -/
theorem add_paired_console_unpaired_keyerror_witness :
    (AgentConfig.init PyVal.none Option.none Option.none PyDict.nil "host").console_info
      = pydict [] ∧
    (AgentConfig.init PyVal.none Option.none Option.none PyDict.nil
      "host").add_paired_console "https://console" "token"
      = .error (.keyError "url") :=
  ⟨rfl,
   add_paired_console_unpaired_keyerror
     (AgentConfig.init PyVal.none Option.none Option.none PyDict.nil "host")
     "https://console" "token" rfl⟩

/-- C8 (code bug): with two configured inputs that have both already run
(`last_run` 100 and 50), `fetch_inputs` sorts them and then evaluates
`self.configured_inputs[inputs_sorted[0]]` — indexing the uuid-keyed dict
with the `Input` object itself — which raises `KeyError` instead of
yielding the oldest input, contradicting the function's own docstring.
The unrun-preference half of the claim does hold: with one never-run
input, exactly that input is yielded. -/
theorem fetch_inputs_all_run_keyerror :
    Poller.fetch_inputs [("id1", ⟨"i1", some 100⟩), ("id2", ⟨"i2", some 50⟩)]
      = .error (.keyError "Input instance is not a key of configured_inputs") ∧
    Poller.fetch_inputs [("id1", ⟨"i1", Option.none⟩), ("id2", ⟨"i2", some 50⟩)]
      = .ok [⟨"i1", Option.none⟩] :=
  ⟨rfl, rfl⟩

/-- C7 (code bug): `set_value("disable_event_cache_check", "false")`
assigns `True`, not `False`: the guard `value.lower in ["true", "false"]`
compares the bound method `value.lower` against strings and is never
satisfied, so the string survives to the bool branch where
`bool("false")` is `True`. -/
theorem set_value_false_string_assigns_true :
    ((AgentConfig.init PyVal.none Option.none Option.none PyDict.nil "host").set_value
      "disable_event_cache_check" (.str "false")).map
        (fun r => (r.1.disable_event_cache_check, r.2)) = .ok (.bool true, true) ∧
    lowerMethodInTrueFalse "false" = false :=
  ⟨rfl, rfl⟩

/-- C2 (code bug): on an initialized manager, `prepare_events` enqueues a
non-`Event` argument unchanged: `parse_event` is a stub that returns its
input (its body is a `TODO`), no `Event` is constructed, and
`prepare_events` does not even accept a `source` argument, so no
`"Unknown"` default exists. -/
theorem prepare_events_raw_not_converted :
    EventManager.prepare_events ⟨true, 1, [], 10000⟩
        [QueueItem.raw (pydict [("title", .str "t")])]
      = .ok ⟨true, 1, [QueueItem.raw (pydict [("title", .str "t")])], 10000⟩ ∧
    (∀ ev : EventObj,
      QueueItem.raw (pydict [("title", .str "t")]) ≠ QueueItem.event ev) ∧
    EventManager.parse_event (pydict [("title", .str "t")])
      = pydict [("title", .str "t")] :=
  ⟨rfl, fun _ h => QueueItem.noConfusion h, rfl⟩

/-- C1 (code bug): with stored `policy_uuid = "u"`, `policy_revision = 1`
and a fetched policy `{uuid: "u", revision: 2}`, `check_policy` does not
apply `from_policy` although the revision differs: its first disjunct
compares `policy["uuid"]` (a string) against `policy_revision` (an int),
which is always false, so only uuid changes ever trigger a merge. The
specification's predicate (`policyChangeSpec`) fires on this input. -/
theorem check_policy_revision_change_not_applied :
    (Agent.check_policy_update
      ((AgentConfig.init PyVal.none Option.none Option.none PyDict.nil "host").from_policy
        (PyDict.ofList [("uuid", .str "u"), ("revision", .int 1)]))
      (PyDict.ofList [("uuid", .str "u"), ("revision", .int 2)]))
      = .ok ((AgentConfig.init PyVal.none Option.none Option.none PyDict.nil "host").from_policy
        (PyDict.ofList [("uuid", .str "u"), ("revision", .int 1)])) ∧
    policyChangeSpec
      ((AgentConfig.init PyVal.none Option.none Option.none PyDict.nil "host").from_policy
        (PyDict.ofList [("uuid", .str "u"), ("revision", .int 1)]))
      (PyDict.ofList [("uuid", .str "u"), ("revision", .int 2)]) = true :=
  ⟨rfl, rfl⟩

/-- C6 (counterexample): a configuration whose `event_cache_ttl` was set to
`99` loses that value when a policy lacking the key is applied —
`from_policy` resets the field to its hard default `30` instead of
retaining the prior value. -/
theorem from_policy_resets_absent_fields :
    (AgentConfig.init PyVal.none Option.none Option.none
      (PyDict.ofList [("event_cache_ttl", .int 99)]) "host").event_cache_ttl = .int 99 ∧
    ((AgentConfig.init PyVal.none Option.none Option.none
      (PyDict.ofList [("event_cache_ttl", .int 99)]) "host").from_policy
        (PyDict.ofList [("uuid", .str "p1"), ("revision", .int 2)])).event_cache_ttl
      = .int 30 ∧
    PyVal.int 30 ≠ PyVal.int 99 :=
  ⟨rfl, rfl, by simp⟩

/-- C6 (amended): after `from_policy(P)`, `policy_uuid` and
`policy_revision` take the values carried by `P`; `uuid` and `name` are
untouched; `console_info` and `roles` retain their prior values when
absent from `P`; every other policy-derived field is reset to its hard
default when absent from `P` (rather than retaining its prior value). -/
theorem from_policy_amended (cfg : AgentConfig) (P : PyDict) (u r : PyVal)
    (hu : P.get? "uuid" = some u) (hr : P.get? "revision" = some r) :
    (cfg.from_policy P).policy_uuid = u ∧
    (cfg.from_policy P).policy_revision = r ∧
    (cfg.from_policy P).uuid = cfg.uuid ∧
    (cfg.from_policy P).name = cfg.name ∧
    (P.get? "console_info" = Option.none →
      (cfg.from_policy P).console_info = cfg.console_info) ∧
    (P.get? "roles" = Option.none → (cfg.from_policy P).roles = cfg.roles) ∧
    (P.get? "role_configs" = Option.none →
      (cfg.from_policy P).role_configs = pydict []) ∧
    (P.get? "event_cache_key" = Option.none →
      (cfg.from_policy P).event_cache_key = .str "signature") ∧
    (P.get? "event_cache_ttl" = Option.none →
      (cfg.from_policy P).event_cache_ttl = .int 30) ∧
    (P.get? "disable_event_cache_check" = Option.none →
      (cfg.from_policy P).disable_event_cache_check = .bool false) ∧
    (P.get? "health_check_interval" = Option.none →
      (cfg.from_policy P).health_check_interval = .int 30) := by
  refine ⟨?_, ?_, rfl, rfl, ?_, ?_, ?_, ?_, ?_, ?_, ?_⟩
  · simp [AgentConfig.from_policy, PyDict.getD, hu]
  · simp [AgentConfig.from_policy, PyDict.getD, hr]
  · intro h
    simp [AgentConfig.from_policy, h]
  · intro h
    simp [AgentConfig.from_policy, PyDict.getD, h]
  · intro h
    simp [AgentConfig.from_policy, PyDict.getD, h]
  · intro h
    simp [AgentConfig.from_policy, PyDict.getD, h]
  · intro h
    simp [AgentConfig.from_policy, PyDict.getD, h]
  · intro h
    simp [AgentConfig.from_policy, PyDict.getD, h]
  · intro h
    simp [AgentConfig.from_policy, PyDict.getD, h]

/-- Witness for the amended C6 at a concrete configuration and policy. -/
theorem from_policy_amended_witness :
    ((AgentConfig.init PyVal.none Option.none Option.none PyDict.nil "host").from_policy
      (PyDict.ofList [("uuid", .str "p1"), ("revision", .int 2)])).policy_uuid
        = .str "p1" ∧
    ((AgentConfig.init PyVal.none Option.none Option.none PyDict.nil "host").from_policy
      (PyDict.ofList [("uuid", .str "p1"), ("revision", .int 2)])).policy_revision
        = .int 2 ∧
    ((AgentConfig.init PyVal.none Option.none Option.none PyDict.nil "host").from_policy
      (PyDict.ofList [("uuid", .str "p1"), ("revision", .int 2)])).event_cache_ttl
        = .int 30 :=
  by
    have h := from_policy_amended
      (AgentConfig.init PyVal.none Option.none Option.none PyDict.nil "host")
      (PyDict.ofList [("uuid", .str "p1"), ("revision", .int 2)])
      (.str "p1") (.int 2) rfl rfl
    exact ⟨h.1, h.2.1, h.2.2.2.2.2.2.2.2.1 rfl⟩

theorem severityFromMap_default_range {custom : Option (List (PyVal × PyVal))}
    {v s : PyVal} (hc : severityMapTruthy custom = false)
    (h : severityFromMap custom v = .ok s) : severityInRange s := by
  unfold severityFromMap at h
  split at h
  · cases h
  · rw [hc] at h
    simp only [if_false, Bool.false_eq_true] at h
    split at h
    · cases h
      exact Or.inl rfl
    · split at h
      case h_1 kv hkv =>
        cases h
        have hmem := List.mem_of_find?_eq_some hkv
        simp only [defaultSeverityMap, List.mem_cons, List.not_mem_nil, or_false] at hmem
        rcases hmem with h1 | h1 | h1 | h1 | h1 | h1 | h1 | h1 <;>
          (subst h1; simp [severityInRange])
      · cases h
        exact Or.inl rfl

theorem setattr_severity (ev : EventObj) (k : String) (v : PyVal) :
    (ev.setattr k v).severity = ev.severity := by
  unfold EventObj.setattr
  split <;> rfl

theorem setattr_customSeverityMap (ev : EventObj) (k : String) (v : PyVal) :
    (ev.setattr k v).customSeverityMap = ev.customSeverityMap := by
  unfold EventObj.setattr
  split <;> rfl

theorem setattr_tlp_of_ne (ev : EventObj) (k : String) (v : PyVal)
    (hk : k ≠ "tlp") : (ev.setattr k v).tlp = ev.tlp := by
  unfold EventObj.setattr
  split <;> first | rfl | exact absurd rfl hk

theorem applyKwargs_facts : ∀ (kwargs : List (String × PyVal)) (ev ev2 : EventObj),
    applyKwargs ev kwargs = .ok ev2 →
    ev2.customSeverityMap = ev.customSeverityMap ∧
    (severityMapTruthy ev.customSeverityMap = false →
      severityInRange ev.severity → severityInRange ev2.severity) ∧
    ((∀ kv ∈ kwargs, kv.1 ≠ "tlp") → ev2.tlp = ev.tlp) := by
  intro kwargs
  induction kwargs with
  | nil =>
    intro ev ev2 h
    cases h
    exact ⟨rfl, fun _ hs => hs, fun _ => rfl⟩
  | cons hd rest ih =>
    intro ev ev2 h
    obtain ⟨k, v⟩ := hd
    unfold applyKwargs at h
    split at h
    · -- observables branch
      obtain ⟨obs, hobs, hrest⟩ := exceptBind_ok h
      have hr := ih _ _ hrest
      refine ⟨hr.1, fun hc hs => hr.2.1 hc hs, fun hne => hr.2.2 ?_⟩
      intro kv hkv
      exact hne kv (List.mem_cons_of_mem _ hkv)
    · split at h
      · -- severity branch
        obtain ⟨sev, hsev, hrest⟩ := exceptBind_ok h
        have hr := ih _ _ hrest
        refine ⟨hr.1, fun hc _ => hr.2.1 hc (severityFromMap_default_range hc hsev),
          fun hne => hr.2.2 ?_⟩
        intro kv hkv
        exact hne kv (List.mem_cons_of_mem _ hkv)
      · -- setattr branch
        have hr := ih _ _ h
        refine ⟨hr.1.trans (setattr_customSeverityMap ev k v), ?_, ?_⟩
        · intro hc hs
          rw [setattr_customSeverityMap ev k v] at hr
          exact hr.2.1 hc (by rw [setattr_severity ev k v]; exact hs)
        · intro hne
          have hktlp : k ≠ "tlp" := by
            have := hne (k, v) (List.mem_cons_self _ _)
            simpa using this
          exact (hr.2.2 (fun kv hkv => hne kv (List.mem_cons_of_mem _ hkv))).trans
            (setattr_tlp_of_ne ev k v hktlp)

theorem coreFrame_rfl (ev : EventObj) : coreFrame ev ev := ⟨rfl, rfl, rfl, rfl, rfl⟩

theorem coreFrame_trans {a b c : EventObj} (h1 : coreFrame a b) (h2 : coreFrame b c) :
    coreFrame a c :=
  ⟨h2.1.trans h1.1, h2.2.1.trans h1.2.1, h2.2.2.1.trans h1.2.2.1,
   h2.2.2.2.1.trans h1.2.2.2.1, h2.2.2.2.2.trans h1.2.2.2.2⟩

theorem extractableStep_frame (ev : EventObj) (k : String) (fp : PyVal)
    (ev' : EventObj) (h : extractableStep ev k fp = .ok ev') : coreFrame ev ev' := by
  unfold extractableStep at h
  split at h <;>
    first
    | (obtain ⟨x, _, hx⟩ := exceptBind_ok h
       cases hx
       exact coreFrame_rfl _)
    | (cases h
       exact coreFrame_rfl _)

theorem applyExtractableFields_frame : ∀ (l : List (String × PyVal)) (ev ev' : EventObj),
    applyExtractableFields ev l = .ok ev' → coreFrame ev ev' := by
  intro l
  induction l with
  | nil =>
    intro ev ev' h
    cases h
    exact coreFrame_rfl _
  | cons hd rest ih =>
    intro ev ev' h
    obtain ⟨k, fp⟩ := hd
    unfold applyExtractableFields at h
    obtain ⟨mid, hmid, hrest⟩ := exceptBind_ok h
    exact coreFrame_trans (extractableStep_frame _ _ _ _ hmid) (ih _ _ hrest)

theorem fixOriginalDate_frame (ev ev' : EventObj) (h : fixOriginalDate ev = .ok ev') :
    coreFrame ev ev' := by
  unfold fixOriginalDate at h
  split at h
  · cases h
    exact coreFrame_rfl _
  · split at h
    · cases h
      exact coreFrame_rfl _
    · cases h

theorem applyStaticFields_facts (ev : EventObj) :
    (applyStaticFields ev).severity = ev.severity ∧
    (applyStaticFields ev).customSeverityMap = ev.customSeverityMap ∧
    (applyStaticFields ev).message = ev.message ∧
    (applyStaticFields ev).baseFields = ev.baseFields ∧
    (ev.baseFields.get? "tlp" = Option.none → (applyStaticFields ev).tlp = ev.tlp) := by
  unfold applyStaticFields
  refine ⟨?_, ?_, ?_, ?_, ?_⟩ <;>
    (cases h1 : ev.baseFields.get? "tlp" <;>
     cases h2 : ev.baseFields.get? "type" <;>
     cases h3 : ev.baseFields.get? "source" <;>
     cases h4 : ev.baseFields.get? "risk_score" <;>
     simp [h1, h2, h3, h4])

theorem applySeverityField_facts (ev ev' : EventObj)
    (h : applySeverityField ev = .ok ev') :
    ev'.customSeverityMap = ev.customSeverityMap ∧
    ev'.tlp = ev.tlp ∧ ev'.message = ev.message ∧ ev'.baseFields = ev.baseFields ∧
    (match ev.baseFields.get? "severity_field" with
     | some f => ∃ x, extractField ev.message f = .ok x ∧
         severityFromMap ev.customSeverityMap x = .ok ev'.severity
     | Option.none => ev'.severity = ev.severity) := by
  unfold applySeverityField at h
  split at h
  case h_1 f hf =>
    obtain ⟨x, hx, hrest⟩ := exceptBind_ok h
    obtain ⟨s, hs, hpure⟩ := exceptBind_ok hrest
    cases hpure
    refine ⟨rfl, rfl, rfl, rfl, ?_⟩
    simp only [hf]
    exact ⟨x, hx, hs⟩
  case h_2 hf =>
    cases h
    refine ⟨rfl, rfl, rfl, rfl, ?_⟩
    simp only [hf]

theorem applyStaticTags_frame (ev ev' : EventObj)
    (h : applyStaticTags ev = .ok ev') : coreFrame ev ev' := by
  unfold applyStaticTags at h
  split at h
  · obtain ⟨t, _, hpure⟩ := exceptBind_ok h
    cases hpure
    exact coreFrame_rfl _
  · cases h
    exact coreFrame_rfl _

theorem appendTag_frame (ev ev' : EventObj) (t : String)
    (h : appendTag ev t = .ok ev') : coreFrame ev ev' := by
  unfold appendTag at h
  split at h
  · cases h
    exact coreFrame_rfl _
  · cases h

theorem appendTag_fold_frame : ∀ (ts : List PyVal) (f : PyVal → String)
    (ev ev' : EventObj),
    ts.foldlM (fun ev tag => appendTag ev (f tag)) ev = .ok ev' →
    coreFrame ev ev' := by
  intro ts
  induction ts with
  | nil =>
    intro f ev ev' h
    cases h
    exact coreFrame_rfl _
  | cons hd rest ih =>
    intro f ev ev' h
    simp only [List.foldlM] at h
    obtain ⟨mid, hmid, hrest⟩ := exceptBind_ok h
    exact coreFrame_trans (appendTag_frame _ _ _ hmid) (ih f _ _ hrest)

theorem applyOneTagField_frame (ev : EventObj) (tf : PyVal) (ev' : EventObj)
    (h : applyOneTagField ev tf = .ok ev') : coreFrame ev ev' := by
  unfold applyOneTagField at h
  obtain ⟨tags, htags, hrest⟩ := exceptBind_ok h
  split at hrest
  · cases hrest
    exact coreFrame_rfl _
  · split at hrest
    case h_1 xs =>
      exact appendTag_fold_frame _ _ _ _ hrest
    case h_2 other =>
      obtain ⟨t, _, hpure⟩ := exceptBind_ok hrest
      cases hpure
      exact coreFrame_rfl _

theorem tagFields_fold_frame : ∀ (items : List PyVal) (ev ev' : EventObj),
    items.foldlM applyOneTagField ev = .ok ev' → coreFrame ev ev' := by
  intro items
  induction items with
  | nil =>
    intro ev ev' h
    cases h
    exact coreFrame_rfl _
  | cons hd rest ih =>
    intro ev ev' h
    simp only [List.foldlM] at h
    obtain ⟨mid, hmid, hrest⟩ := exceptBind_ok h
    exact coreFrame_trans (applyOneTagField_frame _ _ _ hmid) (ih _ _ hrest)

theorem applyTagFields_frame (ev ev' : EventObj)
    (h : applyTagFields ev = .ok ev') : coreFrame ev ev' := by
  unfold applyTagFields at h
  split at h
  case h_1 tf htf =>
    unfold extractFieldsAsTags at h
    split at h
    · cases h
      exact coreFrame_rfl _
    · obtain ⟨items, _, hrest⟩ := exceptBind_ok h
      exact tagFields_fold_frame _ _ _ hrest
  case h_2 =>
    cases h
    exact coreFrame_rfl _

theorem setRawLog_frame (ev : EventObj) : coreFrame ev (setRawLog ev) :=
  ⟨rfl, rfl, rfl, rfl, rfl⟩

theorem generateSignature_frame (nowRepr : String) (ev ev' : EventObj)
    (h : generateSignature nowRepr ev = .ok ev') : coreFrame ev ev' := by
  unfold generateSignature at h
  obtain ⟨vals, _, hpure⟩ := exceptBind_ok h
  cases hpure
  exact coreFrame_rfl _

theorem extractObservables_frame (ev ev' : EventObj)
    (h : extractObservables ev = .ok ev') : coreFrame ev ev' := by
  unfold extractObservables at h
  obtain ⟨obs, _, hpure⟩ := exceptBind_ok h
  cases hpure
  exact coreFrame_rfl _

theorem setEventBase_facts (ev ev' : EventObj) (h : setEventBase ev = .ok ev') :
    ev'.customSeverityMap = ev.customSeverityMap ∧
    ev'.message = ev.message ∧
    (match ev.baseFields.get? "severity_field" with
     | some f => ∃ x, extractField ev.message f = .ok x ∧
         severityFromMap ev.customSeverityMap x = .ok ev'.severity
     | Option.none => ev'.severity = ev.severity) ∧
    (ev.baseFields.get? "tlp" = Option.none → ev'.tlp = ev.tlp) := by
  unfold setEventBase at h
  obtain ⟨e1, h1, h⟩ := exceptBind_ok h
  obtain ⟨e2, h2, h⟩ := exceptBind_ok h
  obtain ⟨e4, h4, h⟩ := exceptBind_ok h
  obtain ⟨e5, h5, h⟩ := exceptBind_ok h
  obtain ⟨e6, h6, hpure⟩ := exceptBind_ok h
  cases hpure
  have f1 := applyExtractableFields_frame _ _ _ h1
  have f2 := fixOriginalDate_frame _ _ h2
  have f3 := applyStaticFields_facts e2
  have f4 := applySeverityField_facts _ _ h4
  have f5 := applyStaticTags_frame _ _ h5
  have f6 := applyTagFields_frame _ _ h6
  -- field bookkeeping
  have hbf2 : e2.baseFields = ev.baseFields := f2.2.2.2.2.trans f1.2.2.2.2
  have hbf3 : (applyStaticFields e2).baseFields = ev.baseFields := f3.2.2.2.1.trans hbf2
  have hmsg2 : e2.message = ev.message := f2.2.2.2.1.trans f1.2.2.2.1
  have hmsg3 : (applyStaticFields e2).message = ev.message := f3.2.2.1.trans hmsg2
  have hcsm2 : e2.customSeverityMap = ev.customSeverityMap := f2.2.2.1.trans f1.2.2.1
  have hcsm3 : (applyStaticFields e2).customSeverityMap = ev.customSeverityMap :=
    f3.2.1.trans hcsm2
  have hsev2 : e2.severity = ev.severity := f2.1.trans f1.1
  have hsev3 : (applyStaticFields e2).severity = ev.severity := f3.1.trans hsev2
  have hsev56 : e6.severity = e4.severity := f6.1.trans f5.1
  have hmsg46 : e6.message = ev.message :=
    (f6.2.2.2.1.trans f5.2.2.2.1).trans (f4.2.2.1.trans hmsg3)
  have hcsm46 : e6.customSeverityMap = ev.customSeverityMap :=
    (f6.2.2.1.trans f5.2.2.1).trans (f4.1.trans hcsm3)
  have hraw_sev : (setRawLog e6).severity = e6.severity := rfl
  have hraw_tlp : (setRawLog e6).tlp = e6.tlp := rfl
  refine ⟨hcsm46, hmsg46, ?_, ?_⟩
  · have := f4.2.2.2.2
    rw [hbf3, hmsg3, hcsm3, hsev3] at this
    rw [hraw_sev]
    revert this
    cases hsf : ev.baseFields.get? "severity_field" with
    | some f =>
        intro this
        obtain ⟨x, hx, hs⟩ := this
        exact ⟨x, hx, by rw [hsev56]; exact hs⟩
    | none =>
        intro this
        rw [hsev56, this]
  · intro htlp
    have h2tlp : e2.baseFields.get? "tlp" = Option.none := by rw [hbf2]; exact htlp
    have h3tlp : (applyStaticFields e2).tlp = e2.tlp := f3.2.2.2.2 h2tlp
    calc (setRawLog e6).tlp = e6.tlp := hraw_tlp
      _ = e4.tlp := f6.2.1.trans f5.2.1
      _ = (applyStaticFields e2).tlp := f4.2.1
      _ = e2.tlp := h3tlp
      _ = ev.tlp := f2.2.1.trans f1.2.1

theorem initParsingConfig_facts (data : Option PyVal) (bf : Option PyDict)
    (sf : Option (List PyVal)) (om : Option (List PyVal)) (srcF : Option PyVal)
    (nowRepr : String) (ev ev' : EventObj)
    (h : initParsingConfig data bf sf om srcF nowRepr ev = .ok ev') :
    ev'.customSeverityMap = ev.customSeverityMap ∧
    (match (bf.getD PyDict.nil).get? "severity_field", data with
     | some f, some _ => ∃ x, extractField ev'.message f = .ok x ∧
         severityFromMap ev.customSeverityMap x = .ok ev'.severity
     | _, _ => ev'.severity = ev.severity) ∧
    ((bf.getD PyDict.nil).get? "tlp" = Option.none → ev'.tlp = ev.tlp) := by
  unfold initParsingConfig at h
  split at h
  case h_1 =>
    cases h
    refine ⟨rfl, ?_, fun _ => rfl⟩
    cases hsf : (bf.getD PyDict.nil).get? "severity_field" <;> simp
  case h_2 d =>
    obtain ⟨msg, hmsg, h⟩ := exceptBind_ok h
    obtain ⟨esb, hsb, h⟩ := exceptBind_ok h
    obtain ⟨egs, hgs, hobs⟩ := exceptBind_ok h
    have fsb := setEventBase_facts _ _ hsb
    have fgs := generateSignature_frame _ _ _ hgs
    have fobs := extractObservables_frame _ _ hobs
    have hmsg' : ev'.message = msg := (fobs.2.2.2.1.trans fgs.2.2.2.1).trans fsb.2.1
    have hsev' : ev'.severity = esb.severity := fobs.1.trans fgs.1
    have htlp' : ev'.tlp = esb.tlp := fobs.2.1.trans fgs.2.1
    have hcsm' : ev'.customSeverityMap = ev.customSeverityMap :=
      ((fobs.2.2.1.trans fgs.2.2.1).trans fsb.1)
    refine ⟨hcsm', ?_, ?_⟩
    · have := fsb.2.2.1
      revert this
      cases hsf : (bf.getD PyDict.nil).get? "severity_field" with
      | some f =>
          intro this
          obtain ⟨x, hx, hs⟩ := this
          refine ⟨x, ?_, by rw [hsev']; exact hs⟩
          rw [hmsg']
          exact hx
      | none =>
          intro this
          simp only []
          rw [hsev', this]
    · intro htlp
      exact (htlp'.trans (fsb.2.2.2 htlp))

theorem init_invariants (data : Option PyVal) (bf : Option PyDict)
    (sf : Option (List PyVal)) (om : Option (List PyVal)) (srcF : Option PyVal)
    (svMap : Option (List (PyVal × PyVal))) (src : PyVal)
    (kwargs : List (String × PyVal)) (nowRepr : String) (ev : EventObj)
    (h : EventObj.init data bf sf om srcF svMap src kwargs nowRepr = .ok ev) :
    (severityMapTruthy svMap = false → severityInRange ev.severity) ∧
    ((∀ kv ∈ kwargs, kv.1 ≠ "tlp") → (bf.getD PyDict.nil).get? "tlp" = Option.none →
      ev.tlp = .int 0) := by
  unfold EventObj.init at h
  split at h
  · cases h
  · obtain ⟨evk, hkw, hipc⟩ := exceptBind_ok h
    have fk := applyKwargs_facts _ _ _ hkw
    have fipc := initParsingConfig_facts _ _ _ _ _ _ _ _ hipc
    constructor
    · intro hc
      have hkcsm : evk.customSeverityMap = svMap := fk.1
      have hkrange : severityInRange evk.severity :=
        fk.2.1 hc (Or.inl rfl)
      have := fipc.2.1
      revert this
      cases hsf : (bf.getD PyDict.nil).get? "severity_field" with
      | some f =>
          cases data with
          | none =>
              intro this
              rw [this]
              exact hkrange
          | some d =>
              intro this
              obtain ⟨x, _, hs⟩ := this
              rw [hkcsm] at hs
              exact severityFromMap_default_range hc hs
      | none =>
          intro this
          cases data with
          | none => rw [this]; exact hkrange
          | some d => rw [this]; exact hkrange
    · intro hne htlp
      have h1 : evk.tlp = .int 0 := fk.2.2 hne
      rw [fipc.2.2 htlp, h1]

theorem init_severity_field_fact (d : PyVal) (bf : Option PyDict)
    (sf : Option (List PyVal)) (om : Option (List PyVal)) (srcF : Option PyVal)
    (svMap : Option (List (PyVal × PyVal))) (src : PyVal)
    (kwargs : List (String × PyVal)) (nowRepr : String) (ev : EventObj) (f : PyVal)
    (hsf : (bf.getD PyDict.nil).get? "severity_field" = some f)
    (h : EventObj.init (some d) bf sf om srcF svMap src kwargs nowRepr = .ok ev) :
    ∃ x, extractField ev.message f = .ok x ∧ severityFromMap svMap x = .ok ev.severity := by
  unfold EventObj.init at h
  split at h
  · cases h
  · obtain ⟨evk, hkw, hipc⟩ := exceptBind_ok h
    have fk := applyKwargs_facts _ _ _ hkw
    have fipc := initParsingConfig_facts _ _ _ _ _ _ _ _ hipc
    have := fipc.2.1
    rw [hsf] at this
    obtain ⟨x, hx, hs⟩ := this
    rw [fk.1] at hs
    exact ⟨x, hx, hs⟩

-- C4 theorems
/-- C4 (counterexample): an Event constructed with
`severity_map={"low": 10}`, `severity="low"` and `tlp=7` succeeds with
`severity = 10` and `tlp = 7`, violating both ranges claimed
(`severity ∈ {1..4}`, `tlp ∈ {0..4}`); the repository's own test suite
asserts the `severity == 10` outcome. -/
theorem severity_tlp_range_violated :
    (EventObj.init Option.none Option.none Option.none Option.none Option.none
      (some [(.str "low", .int 10)]) (.str "s")
      [("severity", .str "low"), ("tlp", .int 7)] "NOW").map
        (fun ev => (ev.severity, ev.tlp)) = .ok (.int 10, .int 7) ∧
    ¬ severityInRange (.int 10) ∧ ¬ tlpInRange (.int 7) :=
  ⟨rfl, by simp [severityInRange], by simp [tlpInRange]⟩

/-- C4 (amended): for every successfully constructed Event whose custom
severity map is not truthy (absent or empty) and whose keyword arguments
are the documented public ones, the final `severity` lies in
`{1, 2, 3, 4}`; and the `tlp` field is not range-checked at all — it is
`0` exactly when no `tlp` was supplied through the keyword arguments or
`base_fields`, and otherwise is whatever value was supplied. -/
theorem severity_tlp_range_amended :
    (∀ (data : Option PyVal) (bf : Option PyDict) (sf om : Option (List PyVal))
      (srcF : Option PyVal) (svMap : Option (List (PyVal × PyVal))) (src : PyVal)
      (kwargs : List (String × PyVal)) (nowRepr : String) (s : PyVal),
      severityMapTruthy svMap = false →
      noPrivateKeys kwargs = true →
      (EventObj.init data bf sf om srcF svMap src kwargs nowRepr).map (·.severity)
        = .ok s →
      severityInRange s) ∧
    (∀ (data : Option PyVal) (bf : Option PyDict) (sf om : Option (List PyVal))
      (srcF : Option PyVal) (svMap : Option (List (PyVal × PyVal))) (src : PyVal)
      (kwargs : List (String × PyVal)) (nowRepr : String) (t : PyVal),
      (∀ kv ∈ kwargs, kv.1 ≠ "tlp") →
      (bf.getD PyDict.nil).get? "tlp" = Option.none →
      (EventObj.init data bf sf om srcF svMap src kwargs nowRepr).map (·.tlp)
        = .ok t →
      t = .int 0) := by
  constructor
  · intro data bf sf om srcF svMap src kwargs nowRepr s hc _ hmap
    obtain ⟨ev, hev, hs⟩ := exceptMap_ok hmap
    subst hs
    exact (init_invariants _ _ _ _ _ _ _ _ _ _ hev).1 hc
  · intro data bf sf om srcF svMap src kwargs nowRepr t hne htlp hmap
    obtain ⟨ev, hev, ht⟩ := exceptMap_ok hmap
    subst ht
    exact (init_invariants _ _ _ _ _ _ _ _ _ _ hev).2 hne htlp

/-- Witness for the amended C4 at a concrete construction
(`severity="low"`, no custom map, no tlp supplied). -/
theorem severity_tlp_range_amended_witness :
    severityMapTruthy (Option.none : Option (List (PyVal × PyVal))) = false ∧
    noPrivateKeys [("severity", PyVal.str "low")] = true ∧
    severityInRange (PyVal.int 1) ∧
    ((EventObj.init Option.none Option.none Option.none Option.none Option.none
      Option.none (.str "s") [("severity", .str "low")] "NOW").map (·.tlp)
        = .ok (.int 0)) ∧
    (PyVal.int 0 = PyVal.int 0) :=
  ⟨rfl, rfl,
   severity_tlp_range_amended.1 Option.none Option.none Option.none Option.none
     Option.none Option.none (.str "s") [("severity", .str "low")] "NOW"
     (.int 1) rfl rfl rfl,
   rfl,
   severity_tlp_range_amended.2 Option.none Option.none Option.none Option.none
     Option.none Option.none (.str "s") [("severity", .str "low")] "NOW"
     (.int 0) (by intro kv hkv; simp at hkv; simp [hkv]) rfl rfl⟩

-- C3 theorems
/-- C3 (counterexample): constructing an Event from the record
`{"x": 1}` with `base_fields = {"severity_field": "sev"}` raises
`TypeError` instead of defaulting the severity to 1: the missing field
extracts `None`, which fails the `isinstance(severity, (str, int))` guard
before the dead `severity is None` default can fire. -/
theorem severity_missing_field_raises_typeerror :
    EventObj.init (some (pydict [("x", .int 1)]))
      (some (PyDict.ofList [("severity_field", .str "sev")]))
      Option.none Option.none Option.none Option.none (.str "test") [] "NOW"
      = .error (.typeError "Severity must be a string or int") ∧
    extractField (pydict [("x", .int 1)]) (.str "sev") = .ok PyVal.none :=
  ⟨rfl, rfl⟩

/-- C3 (amended): for every Event built from a raw record whose
`base_fields` carry a `severity_field`, the final severity is exactly the
`_severity_from_map` translation of the value extracted from the message;
a value that is neither `str` nor `int` — including the `None` produced by
a missing field — raises `TypeError`; an absent custom map and an empty
(falsy) custom map both behave as the default map
`{low:1, medium:2, high:3, critical:4, 1:1, 2:2, 3:3, 4:4}`; and a
`str`/`int` value unknown to the default map yields severity 1. -/
theorem severity_mapping_amended :
    (∀ (d : PyVal) (bf : Option PyDict) (sf om : Option (List PyVal))
      (srcF : Option PyVal) (svMap : Option (List (PyVal × PyVal))) (src : PyVal)
      (kwargs : List (String × PyVal)) (nowRepr : String) (f msg s : PyVal),
      (bf.getD PyDict.nil).get? "severity_field" = some f →
      (EventObj.init (some d) bf sf om srcF svMap src kwargs nowRepr).map
        (fun ev => (ev.message, ev.severity)) = .ok (msg, s) →
      ∃ x, extractField msg f = .ok x ∧ severityFromMap svMap x = .ok s) ∧
    (∀ (m : Option (List (PyVal × PyVal))) (v : PyVal),
      (v.isStr || v.isIntLike) = false →
      severityFromMap m v = .error (.typeError "Severity must be a string or int")) ∧
    (∀ v : PyVal, severityFromMap Option.none v
      = severityFromMap (some defaultSeverityMap) v) ∧
    (∀ (m : List (PyVal × PyVal)) (v : PyVal), severityMapTruthy (some m) = false →
      severityFromMap (some m) v = severityFromMap Option.none v) ∧
    (∀ v : PyVal, (v.isStr || v.isIntLike) = true →
      defaultSeverityMap.find? (fun kv => pyEq kv.1 (severityLowered v)) = Option.none →
      severityFromMap Option.none v = .ok (.int 1)) := by
  refine ⟨?_, ?_, ?_, ?_, ?_⟩
  · intro d bf sf om srcF svMap src kwargs nowRepr f msg s hsf hmap
    rcases exceptMap_ok hmap with ⟨ev, hev, hpair⟩
    cases hpair
    exact init_severity_field_fact _ _ _ _ _ _ _ _ _ _ _ hsf hev
  · intro m v hv
    simp [severityFromMap, hv]
  · intro v
    rfl
  · intro m v hm
    have hm' : (!m.isEmpty) = false := by simpa [severityMapTruthy] using hm
    simp [severityFromMap, severityMapTruthy, hm']
  · intro v hv hfind
    cases v with
    | str s =>
        simp only [severityLowered] at hfind
        simp [severityFromMap, severityLowered, pyIsNone, severityMapTruthy,
          PyVal.isStr, PyVal.isIntLike, hfind]
    | int n =>
        simp only [severityLowered] at hfind
        simp [severityFromMap, severityLowered, pyIsNone, severityMapTruthy,
          PyVal.isStr, PyVal.isIntLike, hfind]
    | bool b =>
        simp only [severityLowered] at hfind
        simp [severityFromMap, severityLowered, pyIsNone, severityMapTruthy,
          PyVal.isStr, PyVal.isIntLike, hfind]
    | none => simp [PyVal.isStr, PyVal.isIntLike] at hv
    | list xs => simp [PyVal.isStr, PyVal.isIntLike] at hv
    | dict kvs => simp [PyVal.isStr, PyVal.isIntLike] at hv

/-- Witness for the amended C3 at a concrete record
(`{"sev": "low"}` with `severity_field = "sev"` and no custom map). -/
theorem severity_mapping_amended_witness :
    ((some (PyDict.ofList [("severity_field", .str "sev")]) : Option PyDict).getD
      PyDict.nil).get? "severity_field" = some (.str "sev") ∧
    ((EventObj.init (some (pydict [("sev", .str "low")]))
      (some (PyDict.ofList [("severity_field", .str "sev")]))
      Option.none Option.none Option.none Option.none (.str "test") [] "NOW").map
        (fun ev => (ev.message, ev.severity))
      = .ok (pydict [("sev", .str "low")], .int 1)) ∧
    (∃ x, extractField (pydict [("sev", .str "low")]) (.str "sev") = .ok x ∧
      severityFromMap Option.none x = .ok (.int 1)) :=
  ⟨rfl, rfl,
   severity_mapping_amended.1 (pydict [("sev", .str "low")])
     (some (PyDict.ofList [("severity_field", .str "sev")])) Option.none Option.none
     Option.none Option.none (.str "test") [] "NOW" (.str "sev")
     (pydict [("sev", .str "low")]) (.int 1) rfl rfl⟩
